import Mathlib

/-!
The status-message lifecycle manager of tgstatus

A shallow embedding of `tgstatus.go`.  The manager keeps the identifier of one
remote status message, edits it in place on every tick, falls back to
delete-and-send when an edit is rejected, and persists the identifier on
shutdown.

Effects are made explicit:

* the Telegram client (`*bot.Bot`) is a `Transport`: three request functions
  acting on an external state `σ`;
* the content callbacks (`StatusFunc`) are functions on the same external state;
* the file system is a `FileSystem`;
* every request, log line, file access and assignment of `messageID` is appended
  to the `trace` of the `World`.
-/

namespace TgStatus

/-! ## External types -/

/-- Go `error` values, identified by their message.  A `nil` error is `none`
of `Option GoError`. -/
structure GoError where
  msg : String
deriving DecidableEq, Repr

/-- The types of the packages `bot` and `models` that the source only passes
through; they are parameters of the development. -/
structure Models where
  MessageEntity : Type
  LinkPreviewOptions : Type
  SuggestedPostParameters : Type
  ReplyParameters : Type
  ReplyMarkup : Type
  Bot : Type

/-- Go `int` is 64 bits wide on the supported platforms. -/
def minInt : Int := -(2 ^ 63)

/-- Largest Go `int`. -/
def maxInt : Int := 2 ^ 63 - 1

/-- The struct `StatusParams` of `tgstatus.go`, field by field.  Pointers and interface
values are `Option`s (`nil` is `none`), slices are lists. -/
structure StatusParams (M : Models) where
  Text : String
  ParseMode : String
  Entities : List M.MessageEntity
  LinkPreviewOptions : Option M.LinkPreviewOptions
  DisableNotification : Bool
  ProtectContent : Bool
  AllowPaidBroadcast : Bool
  MessageEffectID : String
  SuggestedPostParameters : Option M.SuggestedPostParameters
  ReplyParameters : Option M.ReplyParameters
  ReplyMarkup : Option M.ReplyMarkup

/-- The fields of `bot.SendMessageParams` that the source touches.  `ChatID` has
type `any` in the library and is `nil` until assigned. -/
structure SendMessageParams (M : Models) where
  ChatID : Option Int
  Text : String
  ParseMode : String
  Entities : List M.MessageEntity
  LinkPreviewOptions : Option M.LinkPreviewOptions
  DisableNotification : Bool
  ProtectContent : Bool
  AllowPaidBroadcast : Bool
  MessageEffectID : String
  SuggestedPostParameters : Option M.SuggestedPostParameters
  ReplyParameters : Option M.ReplyParameters
  ReplyMarkup : Option M.ReplyMarkup

/-- The fields of `bot.EditMessageTextParams` that the source touches. -/
structure EditMessageTextParams (M : Models) where
  ChatID : Option Int
  MessageID : Int
  Text : String
  ParseMode : String
  Entities : List M.MessageEntity
  LinkPreviewOptions : Option M.LinkPreviewOptions
  ReplyMarkup : Option M.ReplyMarkup

/-- The fields of `bot.DeleteMessageParams` that the source sets. -/
structure DeleteMessageParams where
  ChatID : Option Int
  MessageID : Int
deriving DecidableEq, Repr

/-- The one field of `models.Message` that the source reads. -/
structure Message where
  ID : Int
deriving DecidableEq, Repr

/-- The method `StatusParams.ToSendMessageParams`.  `ChatID` keeps its zero value. -/
def StatusParams.ToSendMessageParams {M : Models} (s : StatusParams M) : SendMessageParams M :=
  { ChatID := none
    Text := s.Text
    ParseMode := s.ParseMode
    Entities := s.Entities
    LinkPreviewOptions := s.LinkPreviewOptions
    DisableNotification := s.DisableNotification
    ProtectContent := s.ProtectContent
    AllowPaidBroadcast := s.AllowPaidBroadcast
    MessageEffectID := s.MessageEffectID
    SuggestedPostParameters := s.SuggestedPostParameters
    ReplyParameters := s.ReplyParameters
    ReplyMarkup := s.ReplyMarkup }

/-- The method `StatusParams.ToEditMessageTextParams`.  `ChatID` and `MessageID` keep their
zero values. -/
def StatusParams.ToEditMessageTextParams {M : Models} (s : StatusParams M) :
    EditMessageTextParams M :=
  { ChatID := none
    MessageID := 0
    Text := s.Text
    ParseMode := s.ParseMode
    Entities := s.Entities
    LinkPreviewOptions := s.LinkPreviewOptions
    ReplyMarkup := s.ReplyMarkup }

/-! ## Transport, callbacks, configuration -/

/-- The three methods of `*bot.Bot` that the manager calls.  Each takes the
handle, the request and the external state, and returns the response with the
next external state. -/
structure Transport (M : Models) (σ : Type) where
  SendMessage : M.Bot → SendMessageParams M → σ → Except GoError Message × σ
  EditMessageText : M.Bot → EditMessageTextParams M → σ → Except GoError Message × σ
  DeleteMessage : M.Bot → DeleteMessageParams → σ → Except GoError Bool × σ

/-- The type `StatusFunc = func() StatusParams`: a callback that may read and change the
external state (the clock, counters). -/
abbrev StatusFunc (M : Models) (σ : Type) : Type := σ → StatusParams M × σ

/-- The struct `Config` of `tgstatus.go`.  `DeleteResendTimeout` is a duration in
nanoseconds; the source never reads it. -/
structure Config (M : Models) (σ : Type) where
  ChatID : Int
  StatusFunc : TgStatus.StatusFunc M σ
  StopStatusFunc : TgStatus.StatusFunc M σ
  SaveFile : String
  DeleteResendTimeout : Int

/-- The struct `StatusManager` of `tgstatus.go`: the embedded `Config`, the transport
handle and the identifier of the current status message (0: none). -/
structure StatusManager (M : Models) (σ : Type) extends Config M σ where
  bot : M.Bot
  messageID : Int

/-! ## Trace -/

/-- Levels of the zerolog calls in the source. -/
inductive LogLevel where
  | debug
  | info
  | warn
  | error
deriving DecidableEq, Repr

/-- What the manager does to the outside, in order.  A `log` event keeps the
level, the message and the error of a zerolog call, and drops its other fields.
The events `storeID` and `resetID` record the two assignments to `messageID` in
`setStatus` together with the value the field had just before. -/
inductive Event (M : Models) where
  | log (level : LogLevel) (msg : String) (err : Option GoError)
  | send (req : SendMessageParams M) (res : Except GoError Message)
  | edit (req : EditMessageTextParams M) (res : Except GoError Message)
  | delete (req : DeleteMessageParams) (res : Except GoError Bool)
  | storeID (old new : Int)
  | resetID (old : Int)
  | readFile (name : String) (data : List Char) (err : Option GoError)
  | writeFile (name : String) (data : List Char) (err : Option GoError)

/-- A send request, whatever its response. -/
def Event.isSend {M : Models} : Event M → Bool
  | .send _ _ => true
  | _ => false

/-- An edit request, whatever its response. -/
def Event.isEdit {M : Models} : Event M → Bool
  | .edit _ _ => true
  | _ => false

/-- A delete request, whatever its response. -/
def Event.isDelete {M : Models} : Event M → Bool
  | .delete _ _ => true
  | _ => false

/-- A request to the transport: send, edit or delete. -/
def Event.isRequest {M : Models} (e : Event M) : Bool :=
  e.isSend || e.isEdit || e.isDelete

/-- An edit request that the transport rejected. -/
def Event.isFailedEdit {M : Models} : Event M → Bool
  | .edit _ (.error _) => true
  | _ => false

/-- A send request that the transport rejected. -/
def Event.isFailedSend {M : Models} : Event M → Bool
  | .send _ (.error _) => true
  | _ => false

/-- A send request answered with a message whose identifier is not 0. -/
def Event.isCreatingSend {M : Models} : Event M → Bool
  | .send _ (.ok msg) => decide (msg.ID ≠ 0)
  | _ => false

/-- The log line with which `UpdateStatus` starts. -/
def Event.isUpdating {M : Models} : Event M → Bool
  | .log .debug msg none => decide (msg = "Updating status...")
  | _ => false

/-- A write to a file. -/
def Event.isWriteFile {M : Models} : Event M → Bool
  | .writeFile _ _ _ => true
  | _ => false

/-- The value that an event assigns to `messageID`, if it assigns one. -/
def Event.assigned {M : Models} : Event M → Option Int
  | .storeID _ new => some new
  | .resetID _ => some 0
  | _ => none

/-- The values taken by `messageID`: the initial one, then every assigned one. -/
def idHistory {M : Models} (init : Int) (evs : List (Event M)) : List Int :=
  init :: evs.filterMap Event.assigned

/-! ## File system and JSON -/

/-- The part of the operating system that `os.ReadFile` and `os.WriteFile` see:
the contents of the files that exist, and which paths refuse to be opened for
reading or for writing. -/
structure FileSystem where
  content : String → Option (List Char)
  readDenied : String → Bool
  writeDenied : String → Bool

/-- Go `os.ReadFile`: the data and the error.  A file that cannot be opened gives
no data. -/
def FileSystem.ReadFile (fs : FileSystem) (name : String) : List Char × Option GoError :=
  if fs.readDenied name then ([], some ⟨"permission denied"⟩)
  else
    match fs.content name with
    | none => ([], some ⟨"no such file or directory"⟩)
    | some data => (data, none)

/-- Go `os.WriteFile`: the error and the file system afterwards.  A refused write
leaves the file system as it was. -/
def FileSystem.WriteFile (fs : FileSystem) (name : String) (data : List Char) :
    Option GoError × FileSystem :=
  if fs.writeDenied name then (some ⟨"permission denied"⟩, fs)
  else (none, { fs with content := fun p => if p = name then some data else fs.content p })

/-- Go `json.Marshal` of a Go `int`: the decimal digits, with a minus sign for a
negative number.  It never fails. -/
def jsonMarshalInt (n : Int) : List Char :=
  if n < 0 then '-' :: Nat.toDigits 10 n.natAbs else Nat.toDigits 10 n.natAbs

/-- JSON insignificant whitespace. -/
def isJSONSpace (c : Char) : Bool :=
  c = ' ' || c = '\t' || c = '\n' || c = '\r'

/-- The input without the whitespace around the value. -/
def trimJSONSpace (cs : List Char) : List Char :=
  ((cs.dropWhile isJSONSpace).reverse.dropWhile isJSONSpace).reverse

/-- The number written by a list of decimal digits. -/
def digitsValue (cs : List Char) : Nat :=
  cs.foldl (fun a c => 10 * a + (c.toNat - 48)) 0

/-- An unsigned JSON integer literal, `0` or `[1-9][0-9]*`, and its value. -/
def parseNatLit : List Char → Option Nat
  | [] => none
  | c :: cs =>
    if c = '0' then (if cs = [] then some 0 else none)
    else if c.isDigit && cs.all Char.isDigit then some (digitsValue (c :: cs))
    else none

/-- A JSON integer literal, `-?(0|[1-9][0-9]*)`, and its value. -/
def parseIntLit : List Char → Option Int
  | [] => none
  | c :: cs =>
    if c = '-' then
      match parseNatLit cs with
      | some v => some (-(v : Int))
      | none => none
    else
      match parseNatLit (c :: cs) with
      | some v => some (v : Int)
      | none => none

/-- Go `json.Unmarshal(data, &v)` for `v` a Go `int` holding `cur`: the error and
the new value of `v`.  An integer literal in range is stored; `null` stores
nothing and is no error; every other input (empty, malformed, a value of
another JSON type, a number with fraction or exponent, a number out of range)
is an error and stores nothing. -/
def jsonUnmarshalInt (data : List Char) (cur : Int) : Option GoError × Int :=
  let t := trimJSONSpace data
  if t = [] then (some ⟨"unexpected end of JSON input"⟩, cur)
  else
    match parseIntLit t with
    | some v =>
      if minInt ≤ v ∧ v ≤ maxInt then (none, v)
      else (some ⟨"json: cannot unmarshal number into Go value of type int"⟩, cur)
    | none =>
      if t = ['n', 'u', 'l', 'l'] then (none, cur)
      else (some ⟨"json: invalid input for a Go value of type int"⟩, cur)

/-- The content is, up to surrounding whitespace, one JSON integer literal. -/
def isJSONInteger (data : List Char) : Bool :=
  (parseIntLit (trimJSONSpace data)).isSome

/-! ## World -/

/-- Everything outside the manager: the external state seen by the transport
and the callbacks, the file system, and the trace so far. -/
structure World (M : Models) (σ : Type) where
  ext : σ
  fs : FileSystem
  trace : List (Event M)

/-- Append one event to the trace. -/
def World.emit {M : Models} {σ : Type} (w : World M σ) (e : Event M) : World M σ :=
  { w with trace := w.trace ++ [e] }

/-- The events appended to the trace between `w` and `w2`. -/
def emitted {M : Models} {σ : Type} (w w2 : World M σ) : List (Event M) :=
  w2.trace.drop w.trace.length

/-! ## The manager -/

/-- The constructor `NewStatusManager`: the manager and the world afterwards.  The
identifier starts at 0; with a non-empty `SaveFile` the file is read and decoded
into it, and a failure of either step is only logged. -/
def NewStatusManager {M : Models} {σ : Type} (b : M.Bot) (config : Config M σ)
    (w : World M σ) : StatusManager M σ × World M σ :=
  let sm : StatusManager M σ := { toConfig := config, bot := b, messageID := 0 }
  if config.SaveFile ≠ "" then
    let r := w.fs.ReadFile config.SaveFile
    let w := w.emit (.readFile config.SaveFile r.1 r.2)
    let w :=
      match r.2 with
      | some err => w.emit (.log .error "Failed to read save file" (some err))
      | none => w
    let u := jsonUnmarshalInt r.1 sm.messageID
    let sm := { sm with messageID := u.2 }
    match u.1 with
    | some err => (sm, w.emit (.log .error "Failed to unmarshal save file" (some err)))
    | none => (sm, w)
  else (sm, w)

/-- The method `StatusManager.setStatus`: the returned error, the manager and the world
afterwards. -/
def setStatus {M : Models} {σ : Type} (T : Transport M σ) (s : StatusManager M σ)
    (params : StatusParams M) (w : World M σ) :
    Option GoError × StatusManager M σ × World M σ :=
  if h : s.messageID = 0 then
    let w := w.emit (.log .warn "Message ID is not set; sending new message..." none)
    let sendMessageParams : SendMessageParams M :=
      { params.ToSendMessageParams with ChatID := some s.ChatID }
    let r := T.SendMessage s.bot sendMessageParams w.ext
    let w := { w with ext := r.2 }.emit (.send sendMessageParams r.1)
    match r.1 with
    | .error err => (some err, s, w)
    | .ok msg => (none, { s with messageID := msg.ID }, w.emit (.storeID s.messageID msg.ID))
  else
    let w := w.emit (.log .debug "Editing status message..." none)
    let editMessageTextParams : EditMessageTextParams M :=
      { params.ToEditMessageTextParams with ChatID := some s.ChatID, MessageID := s.messageID }
    let r := T.EditMessageText s.bot editMessageTextParams w.ext
    let w := { w with ext := r.2 }.emit (.edit editMessageTextParams r.1)
    match r.1 with
    | .error err =>
      let w := w.emit (.log .warn
        "Failed to edit status message; trying to delete it and send new one..." (some err))
      let deleteMessageParams : DeleteMessageParams :=
        { ChatID := some s.ChatID, MessageID := s.messageID }
      let d := T.DeleteMessage s.bot deleteMessageParams w.ext
      let w := { w with ext := d.2 }.emit (.delete deleteMessageParams d.1)
      let w :=
        match d.1 with
        | .error err => w.emit (.log .error "Failed to delete status message" (some err))
        | .ok isDeleted =>
          if !isDeleted then w.emit (.log .warn "The status message is not deleted" none)
          else w
      let w := w.emit (.resetID s.messageID)
      setStatus T { s with messageID := 0 } params w
    | .ok _ => (none, s, w)
termination_by (if s.messageID = 0 then 0 else 1)
decreasing_by simp [h]

/-- The method `StatusManager.UpdateStatus`: the manager and the world afterwards. -/
def UpdateStatus {M : Models} {σ : Type} (T : Transport M σ) (s : StatusManager M σ)
    (statusFunc : StatusFunc M σ) (w : World M σ) : StatusManager M σ × World M σ :=
  let w := w.emit (.log .debug "Updating status..." none)
  let c := statusFunc w.ext
  let params := c.1
  let w := { w with ext := c.2 }
  let r := setStatus T s params w
  match r.1 with
  | some err => (r.2.1, r.2.2.emit (.log .warn "Failed to update status" (some err)))
  | none => (r.2.1, r.2.2.emit (.log .info "Status updated" none))

/-- The method `StatusManager.saveFile`: the returned error and the world
afterwards.  Encoding an `int` cannot fail, so the error branch after
`json.Marshal` is never taken. -/
def saveFile {M : Models} {σ : Type} (s : StatusManager M σ) (w : World M σ) :
    Option GoError × World M σ :=
  if s.messageID = 0 ∨ s.SaveFile = "" then (none, w)
  else
    let w := w.emit (.log .debug "Saving message ID..." none)
    let data := jsonMarshalInt s.messageID
    let r := w.fs.WriteFile s.SaveFile data
    let w := { w with fs := r.2 }.emit (.writeFile s.SaveFile data r.1)
    match r.1 with
    | some err => (some err, w)
    | none => (none, w)

/-- The `for`/`select` loop of `RunUpdater`, for a run in which the timer
fires `n` times before the context is cancelled. -/
def RunUpdater.loop {M : Models} {σ : Type} (T : Transport M σ) :
    Nat → StatusManager M σ → World M σ → StatusManager M σ × World M σ
  | 0, s, w =>
    let w := w.emit (.log .debug "Stopping updater..." none)
    let u := UpdateStatus T s s.StopStatusFunc w
    let r := saveFile u.1 u.2
    match r.1 with
    | some err => (u.1, r.2.emit (.log .error "Failed to save message ID" (some err)))
    | none => (u.1, r.2.emit (.log .info "Updater stopped" none))
  | n + 1, s, w =>
    let u := UpdateStatus T s s.StatusFunc w
    RunUpdater.loop T n u.1 u.2

/-- The method `StatusManager.RunUpdater`, for a run in which the timer fires
`n` times before the context is cancelled; `n` stands for the arguments `ctx` and
`period`. -/
def RunUpdater {M : Models} {σ : Type} (T : Transport M σ) (s : StatusManager M σ)
    (n : Nat) (w : World M σ) : StatusManager M σ × World M σ :=
  let w := w.emit (.log .debug "Updater started" none)
  let u := UpdateStatus T s s.StatusFunc w
  RunUpdater.loop T n u.1 u.2

/-- Successive reconciliations: `setStatus` with each of the given params in
turn, as the update loop performs them. -/
def reconcileAll {M : Models} {σ : Type} (T : Transport M σ) :
    List (StatusParams M) → StatusManager M σ → World M σ → StatusManager M σ × World M σ
  | [], s, w => (s, w)
  | p :: ps, s, w =>
    let r := setStatus T s p w
    reconcileAll T ps r.2.1 r.2.2

/-- The first `k` regular ticks: `UpdateStatus` with `StatusFunc`, `k` times. -/
def regularTicks {M : Models} {σ : Type} (T : Transport M σ) :
    Nat → StatusManager M σ → World M σ → StatusManager M σ × World M σ
  | 0, s, w => (s, w)
  | k + 1, s, w =>
    let u := UpdateStatus T s s.StatusFunc w
    regularTicks T k u.1 u.2

/-! ## Requests and log lines of `setStatus` -/

/-- The send request that `setStatus` builds from `params`. -/
def sendRequest {M : Models} {σ : Type} (s : StatusManager M σ) (params : StatusParams M) :
    SendMessageParams M :=
  { params.ToSendMessageParams with ChatID := some s.ChatID }

/-- The edit request that `setStatus` builds from `params`. -/
def editRequest {M : Models} {σ : Type} (s : StatusManager M σ) (params : StatusParams M) :
    EditMessageTextParams M :=
  { params.ToEditMessageTextParams with ChatID := some s.ChatID, MessageID := s.messageID }

/-- The delete request that `setStatus` builds in the fallback. -/
def deleteRequest {M : Models} {σ : Type} (s : StatusManager M σ) : DeleteMessageParams :=
  { ChatID := some s.ChatID, MessageID := s.messageID }

/-- The log line, if any, that follows the response to the delete request. -/
def deleteLog {M : Models} : Except GoError Bool → List (Event M)
  | .error err => [.log .error "Failed to delete status message" (some err)]
  | .ok false => [.log .warn "The status message is not deleted" none]
  | .ok true => []

/-! ## Examples -/

/-- Library types instantiated trivially. -/
def plainModels : Models :=
  { MessageEntity := Unit
    LinkPreviewOptions := Unit
    SuggestedPostParameters := Unit
    ReplyParameters := Unit
    ReplyMarkup := Unit
    Bot := Unit }

/-- A transport that answers every send, edit and delete with a fixed response. -/
def fixedBot (sendRes editRes : Except GoError Message) (deleteRes : Except GoError Bool) :
    Transport plainModels Unit :=
  { SendMessage := fun _ _ x => (sendRes, x)
    EditMessageText := fun _ _ x => (editRes, x)
    DeleteMessage := fun _ _ x => (deleteRes, x) }

/-- Status content that is just a text. -/
def textParams (t : String) : StatusParams plainModels :=
  { Text := t
    ParseMode := ""
    Entities := []
    LinkPreviewOptions := none
    DisableNotification := false
    ProtectContent := false
    AllowPaidBroadcast := false
    MessageEffectID := ""
    SuggestedPostParameters := none
    ReplyParameters := none
    ReplyMarkup := none }

/-- A configuration for chat `-1001` with constant callbacks. -/
def demoConfig (saveFile : String) : Config plainModels Unit :=
  { ChatID := -1001
    StatusFunc := fun x => (textParams "up", x)
    StopStatusFunc := fun x => (textParams "stopped", x)
    SaveFile := saveFile
    DeleteResendTimeout := 0 }

/-- A manager over `demoConfig` with the given current identifier. -/
def demoManager (saveFile : String) (id : Int) : StatusManager plainModels Unit :=
  { toConfig := demoConfig saveFile, bot := (), messageID := id }

/-- A file system with no files and no restrictions. -/
def emptyFS : FileSystem :=
  { content := fun _ => none
    readDenied := fun _ => false
    writeDenied := fun _ => false }

/-- A world with the given file system and an empty trace. -/
def freshWorld (fs : FileSystem) : World plainModels Unit :=
  { ext := (), fs := fs, trace := [] }

/-- The transport of the scenario in the specification, with the number of
requests so far as its state: the first send returns message 7 and every later
one message 9; an edit is rejected exactly when its text is "C"; every delete
succeeds. -/
def scenarioBot : Transport plainModels Nat :=
  { SendMessage := fun _ _ k => (if k = 0 then .ok ⟨7⟩ else .ok ⟨9⟩, k + 1)
    EditMessageText := fun _ req k =>
      (if req.Text = "C" then .error ⟨"message cannot be edited"⟩ else .ok ⟨req.MessageID⟩,
        k + 1)
    DeleteMessage := fun _ _ k => (.ok true, k + 1) }

/-- The manager of the scenario: chat `-1001`, no save file, no message yet. -/
def scenarioManager : StatusManager plainModels Nat :=
  { ChatID := -1001
    StatusFunc := fun k => (textParams "up", k)
    StopStatusFunc := fun k => (textParams "stopped", k)
    SaveFile := ""
    DeleteResendTimeout := 0
    bot := ()
    messageID := 0 }

/-- The world of the scenario: no request made yet, no files, empty trace. -/
def scenarioWorld : World plainModels Nat :=
  { ext := 0, fs := emptyFS, trace := [] }

/-! ## The five outcomes of one reconciliation -/

/-- The shapes that one call of `setStatus` can take: the returned error, the
final identifier and the events emitted, for a manager `s` and params `p`. -/
inductive Outcome {M : Models} {σ : Type} (s : StatusManager M σ) (p : StatusParams M) :
    Option GoError → Int → List (Event M) → Prop where
  | sendFailed (err : GoError) (h : s.messageID = 0) :
      Outcome s p (some err) 0
        [.log .warn "Message ID is not set; sending new message..." none,
         .send (sendRequest s p) (.error err)]
  | sendOk (msg : Message) (h : s.messageID = 0) :
      Outcome s p none msg.ID
        [.log .warn "Message ID is not set; sending new message..." none,
         .send (sendRequest s p) (.ok msg),
         .storeID 0 msg.ID]
  | editOk (msg : Message) (h : s.messageID ≠ 0) :
      Outcome s p none s.messageID
        [.log .debug "Editing status message..." none,
         .edit (editRequest s p) (.ok msg)]
  | fallbackFailed (e : GoError) (d : Except GoError Bool) (err : GoError)
      (h : s.messageID ≠ 0) :
      Outcome s p (some err) 0
        ([.log .debug "Editing status message..." none,
          .edit (editRequest s p) (.error e),
          .log .warn
            "Failed to edit status message; trying to delete it and send new one..." (some e),
          .delete (deleteRequest s) d] ++ deleteLog d ++
         [.resetID s.messageID,
          .log .warn "Message ID is not set; sending new message..." none,
          .send (sendRequest s p) (.error err)])
  | fallbackOk (e : GoError) (d : Except GoError Bool) (msg : Message)
      (h : s.messageID ≠ 0) :
      Outcome s p none msg.ID
        ([.log .debug "Editing status message..." none,
          .edit (editRequest s p) (.error e),
          .log .warn
            "Failed to edit status message; trying to delete it and send new one..." (some e),
          .delete (deleteRequest s) d] ++ deleteLog d ++
         [.resetID s.messageID,
          .log .warn "Message ID is not set; sending new message..." none,
          .send (sendRequest s p) (.ok msg),
          .storeID 0 msg.ID])

/-- The outcomes of successive reconciliations of a manager with configuration
`c` and handle `b`: from identifier `k`, the params `ps` lead to identifier
`id` and emit `evs`. -/
inductive RunOutcome {M : Models} {σ : Type} (c : Config M σ) (b : M.Bot) :
    Int → List (StatusParams M) → Int → List (Event M) → Prop where
  | nil (k : Int) : RunOutcome c b k [] k []
  | cons (k : Int) (p : StatusParams M) (ps : List (StatusParams M)) (err : Option GoError)
      (id1 : Int) (evs1 : List (Event M)) (id : Int) (evs2 : List (Event M))
      (h1 : Outcome { toConfig := c, bot := b, messageID := k } p err id1 evs1)
      (h2 : RunOutcome c b id1 ps id evs2) :
      RunOutcome c b k (p :: ps) id (evs1 ++ evs2)

/-- The relation between consecutive values of `messageID` that the single
current message invariant asks for. -/
def sameOrReset (a b : Int) : Prop := a ≠ 0 → b ≠ 0 → a = b

/-! ## Log lines of `UpdateStatus` and `RunUpdater` -/

/-- The log line with which `UpdateStatus` ends. -/
def reportLog {M : Models} : Option GoError → Event M
  | some err => .log .warn "Failed to update status" (some err)
  | none => .log .info "Status updated" none

/-- The manager and the world at the moment `RunUpdater` observes the
cancellation, after `n` timer expiries: the start line has been logged and
`n + 1` regular ticks have run. -/
def atCancel {M : Models} {σ : Type} (T : Transport M σ) (s : StatusManager M σ)
    (n : Nat) (w : World M σ) : StatusManager M σ × World M σ :=
  regularTicks T (n + 1) s (w.emit (.log .debug "Updater started" none))

/-- The manager and the world after the stop reconciliation. -/
def afterStop {M : Models} {σ : Type} (T : Transport M σ) (s : StatusManager M σ)
    (n : Nat) (w : World M σ) : StatusManager M σ × World M σ :=
  UpdateStatus T (atCancel T s n w).1 (atCancel T s n w).1.StopStatusFunc
    ((atCancel T s n w).2.emit (.log .debug "Stopping updater..." none))

/-- The log line with which `RunUpdater` ends, given the result of `saveFile`. -/
def closingLog {M : Models} : Option GoError → Event M
  | some err => .log .error "Failed to save message ID" (some err)
  | none => .log .info "Updater stopped" none

/-! ## `setStatus` with its recursive call unrolled -/

/-- The branch of `setStatus` for `messageID = 0`: one send. -/
def sendFresh {M : Models} {σ : Type} (T : Transport M σ) (s : StatusManager M σ)
    (params : StatusParams M) (w : World M σ) :
    Option GoError × StatusManager M σ × World M σ :=
  let w := w.emit (.log .warn "Message ID is not set; sending new message..." none)
  let sendMessageParams : SendMessageParams M :=
    { params.ToSendMessageParams with ChatID := some s.ChatID }
  let r := T.SendMessage s.bot sendMessageParams w.ext
  let w := { w with ext := r.2 }.emit (.send sendMessageParams r.1)
  match r.1 with
  | .error err => (some err, s, w)
  | .ok msg => (none, { s with messageID := msg.ID }, w.emit (.storeID s.messageID msg.ID))

/-- The body of `setStatus` in which the recursive call, always made with
`messageID = 0`, is replaced by the branch it takes.  It equals `setStatus`
(`setStatus_eq_unrolled`) and evaluates by unfolding. -/
def setStatusUnrolled {M : Models} {σ : Type} (T : Transport M σ) (s : StatusManager M σ)
    (params : StatusParams M) (w : World M σ) :
    Option GoError × StatusManager M σ × World M σ :=
  if s.messageID = 0 then sendFresh T s params w
  else
    let w := w.emit (.log .debug "Editing status message..." none)
    let editMessageTextParams : EditMessageTextParams M :=
      { params.ToEditMessageTextParams with ChatID := some s.ChatID, MessageID := s.messageID }
    let r := T.EditMessageText s.bot editMessageTextParams w.ext
    let w := { w with ext := r.2 }.emit (.edit editMessageTextParams r.1)
    match r.1 with
    | .error err =>
      let w := w.emit (.log .warn
        "Failed to edit status message; trying to delete it and send new one..." (some err))
      let deleteMessageParams : DeleteMessageParams :=
        { ChatID := some s.ChatID, MessageID := s.messageID }
      let d := T.DeleteMessage s.bot deleteMessageParams w.ext
      let w := { w with ext := d.2 }.emit (.delete deleteMessageParams d.1)
      let w :=
        match d.1 with
        | .error err => w.emit (.log .error "Failed to delete status message" (some err))
        | .ok isDeleted =>
          if !isDeleted then w.emit (.log .warn "The status message is not deleted" none)
          else w
      let w := w.emit (.resetID s.messageID)
      sendFresh T { s with messageID := 0 } params w
    | .ok _ => (none, s, w)

/-! ## Example file systems -/

/-- A file system holding one file, without restrictions. -/
def oneFileFS (name : String) (data : List Char) : FileSystem :=
  { content := fun p => if p = name then some data else none
    readDenied := fun _ => false
    writeDenied := fun _ => false }

/-- A file system without files that refuses every write. -/
def readOnlyFS : FileSystem :=
  { content := fun _ => none
    readDenied := fun _ => false
    writeDenied := fun _ => true }

/-! ## The shutdown sequence in the words of the specification -/

/-- A log line, as opposed to a request, an assignment or a file access. -/
def Event.isLog {M : Models} : Event M → Bool
  | .log _ _ _ => true
  | _ => false

/-- A send or edit request whose content is that of the params `p`: the request
is the conversion of `p` up to the addressing fields.  Other events carry no
content. -/
def Event.builtFrom {M : Models} (p : StatusParams M) : Event M → Prop
  | .send req _ => req = { p.ToSendMessageParams with ChatID := req.ChatID }
  | .edit req _ =>
    req = { p.ToEditMessageTextParams with ChatID := req.ChatID, MessageID := req.MessageID }
  | _ => True

/-- What a world shows apart from the log: the external state, the file system,
and the requests, assignments and file accesses of the trace. -/
def World.effects {M : Models} {σ : Type} (w : World M σ) :
    σ × FileSystem × List (Event M) :=
  (w.ext, w.fs, w.trace.filter (fun e => !e.isLog))

/-- One reconciliation with the content callback `f`, in the words of the
specification: the callback is asked for the content, and `setStatus` reconciles
the remote message with it.  Nothing else happens. -/
def reconcileWith {M : Models} {σ : Type} (T : Transport M σ) (f : StatusFunc M σ)
    (s : StatusManager M σ) (w : World M σ) : StatusManager M σ × World M σ :=
  let c := f w.ext
  let r := setStatus T s c.1 { w with ext := c.2 }
  (r.2.1, r.2.2)

/-- The reconciliation with `StatusFunc`, `k` times in a row. -/
def reconcileTimes {M : Models} {σ : Type} (T : Transport M σ) :
    Nat → StatusManager M σ → World M σ → StatusManager M σ × World M σ
  | 0, s, w => (s, w)
  | k + 1, s, w =>
    let r := reconcileWith T s.StatusFunc s w
    reconcileTimes T k r.1 r.2

/-- The shutdown sequence in the words of the specification, for `n` timer
expiries before the cancellation: `n + 1` reconciliations with `StatusFunc`,
then one reconciliation with `StopStatusFunc`, then one call of `saveFile`.  It
is written with `setStatus` and the callbacks only, and is what `RunUpdater` is
compared with. -/
def shutdownSpec {M : Models} {σ : Type} (T : Transport M σ) (s : StatusManager M σ)
    (n : Nat) (w : World M σ) : StatusManager M σ × World M σ :=
  let a := reconcileTimes T (n + 1) s w
  let b := reconcileWith T a.1.StopStatusFunc a.1 a.2
  (b.1, (saveFile b.1 b.2).2)

/-! ## Unfolding `setStatus` -/

theorem setStatus_zero_error {M : Models} {σ : Type} (T : Transport M σ)
    (s : StatusManager M σ) (p : StatusParams M) (w : World M σ) (err : GoError)
    (h : s.messageID = 0)
    (hs : (T.SendMessage s.bot (sendRequest s p) w.ext).1 = .error err) :
    setStatus T s p w =
      (some err, s,
        { ext := (T.SendMessage s.bot (sendRequest s p) w.ext).2
          fs := w.fs
          trace := w.trace ++
            [.log .warn "Message ID is not set; sending new message..." none,
             .send (sendRequest s p) (.error err)] }) := by
  rw [setStatus]
  simp only [sendRequest] at hs
  simp [h, World.emit, sendRequest, hs]

theorem setStatus_zero_ok {M : Models} {σ : Type} (T : Transport M σ)
    (s : StatusManager M σ) (p : StatusParams M) (w : World M σ) (msg : Message)
    (h : s.messageID = 0)
    (hs : (T.SendMessage s.bot (sendRequest s p) w.ext).1 = .ok msg) :
    setStatus T s p w =
      (none, { s with messageID := msg.ID },
        { ext := (T.SendMessage s.bot (sendRequest s p) w.ext).2
          fs := w.fs
          trace := w.trace ++
            [.log .warn "Message ID is not set; sending new message..." none,
             .send (sendRequest s p) (.ok msg),
             .storeID 0 msg.ID] }) := by
  rw [setStatus]
  simp only [sendRequest] at hs
  simp [h, World.emit, sendRequest, hs]

theorem setStatus_edit_ok {M : Models} {σ : Type} (T : Transport M σ)
    (s : StatusManager M σ) (p : StatusParams M) (w : World M σ) (msg : Message)
    (h : s.messageID ≠ 0)
    (he : (T.EditMessageText s.bot (editRequest s p) w.ext).1 = .ok msg) :
    setStatus T s p w =
      (none, s,
        { ext := (T.EditMessageText s.bot (editRequest s p) w.ext).2
          fs := w.fs
          trace := w.trace ++
            [.log .debug "Editing status message..." none,
             .edit (editRequest s p) (.ok msg)] }) := by
  rw [setStatus]
  simp only [editRequest] at he
  simp [h, World.emit, editRequest, he]

theorem setStatus_edit_error {M : Models} {σ : Type} (T : Transport M σ)
    (s : StatusManager M σ) (p : StatusParams M) (w : World M σ) (err : GoError)
    (h : s.messageID ≠ 0)
    (he : (T.EditMessageText s.bot (editRequest s p) w.ext).1 = .error err) :
    setStatus T s p w =
      setStatus T { s with messageID := 0 } p
        { ext := (T.DeleteMessage s.bot (deleteRequest s)
            (T.EditMessageText s.bot (editRequest s p) w.ext).2).2
          fs := w.fs
          trace := w.trace ++
            ([.log .debug "Editing status message..." none,
              .edit (editRequest s p) (.error err),
              .log .warn
                "Failed to edit status message; trying to delete it and send new one..."
                (some err),
              .delete (deleteRequest s)
                (T.DeleteMessage s.bot (deleteRequest s)
                  (T.EditMessageText s.bot (editRequest s p) w.ext).2).1] ++
             deleteLog
                (T.DeleteMessage s.bot (deleteRequest s)
                  (T.EditMessageText s.bot (editRequest s p) w.ext).2).1 ++
             [.resetID s.messageID]) } := by
  rw [setStatus]
  simp only [editRequest] at he
  simp only [h, World.emit, editRequest, he, deleteRequest, dite_false]
  congr 1
  rcases hd : (T.DeleteMessage s.bot { ChatID := some s.ChatID, MessageID := s.messageID }
      (T.EditMessageText s.bot _ w.ext).2).1 with e | b
  · simp [deleteLog]
  · cases b <;> simp [deleteLog]

theorem setStatus_of_zero {M : Models} {σ : Type} (T : Transport M σ)
    (s : StatusManager M σ) (p : StatusParams M) (w : World M σ) (h : s.messageID = 0) :
    setStatus T s p w = sendFresh T s p w := by
  rw [setStatus]
  simp only [h, dite_true, sendFresh]

theorem setStatus_eq_unrolled {M : Models} {σ : Type} (T : Transport M σ)
    (s : StatusManager M σ) (p : StatusParams M) (w : World M σ) :
    setStatus T s p w = setStatusUnrolled T s p w := by
  by_cases h : s.messageID = 0
  · rw [setStatus_of_zero T s p w h]
    simp only [setStatusUnrolled, h, if_true]
  · rw [setStatus]
    simp only [h, dite_false, setStatusUnrolled, if_false]
    split
    · rw [setStatus_of_zero T _ p _ rfl]
    · rfl

theorem emitted_append {M : Models} {σ : Type} (w : World M σ) (x : σ) (fs : FileSystem)
    (evs : List (Event M)) :
    emitted w { ext := x, fs := fs, trace := w.trace ++ evs } = evs := by
  simp [emitted]

/-! ## Reconciliation -/

/-- C1: with no current message (`messageID = 0`) `setStatus` issues exactly one
request, the send built from the params and addressed to the configured chat;
if it succeeds with message `msg` the result is `nil` and `messageID = msg.ID`,
if it fails with `err` the result is `err` and `messageID` is still 0. -/
theorem setStatus_unset_sends_once {M : Models} {σ : Type} (T : Transport M σ)
    (s : StatusManager M σ) (p : StatusParams M) (w : World M σ) (h : s.messageID = 0) :
    ((emitted w (setStatus T s p w).2.2).filter Event.isRequest =
        [.send (sendRequest s p) (T.SendMessage s.bot (sendRequest s p) w.ext).1]) ∧
    sendRequest s p = { p.ToSendMessageParams with ChatID := some s.ChatID } ∧
    (∀ msg, (T.SendMessage s.bot (sendRequest s p) w.ext).1 = .ok msg →
      (setStatus T s p w).1 = none ∧ (setStatus T s p w).2.1.messageID = msg.ID) ∧
    (∀ err, (T.SendMessage s.bot (sendRequest s p) w.ext).1 = .error err →
      (setStatus T s p w).1 = some err ∧ (setStatus T s p w).2.1.messageID = 0) := by
  refine ⟨?_, rfl, ?_, ?_⟩
  · rcases hs : (T.SendMessage s.bot (sendRequest s p) w.ext).1 with err | msg
    · rw [setStatus_zero_error T s p w err h hs, emitted_append]
      simp [Event.isRequest, Event.isSend, Event.isEdit, Event.isDelete]
    · rw [setStatus_zero_ok T s p w msg h hs, emitted_append]
      simp [Event.isRequest, Event.isSend, Event.isEdit, Event.isDelete]
  · intro msg hs
    rw [setStatus_zero_ok T s p w msg h hs]
    exact ⟨rfl, rfl⟩
  · intro err hs
    rw [setStatus_zero_error T s p w err h hs]
    exact ⟨rfl, h⟩

/-- C1 at a concrete input: no current message, the send returns id 7. -/
theorem setStatus_unset_sends_once_witness :
    (setStatus (fixedBot (.ok ⟨7⟩) (.ok ⟨7⟩) (.ok true)) (demoManager "" 0) (textParams "A")
        (freshWorld emptyFS)).1 = none ∧
    (setStatus (fixedBot (.ok ⟨7⟩) (.ok ⟨7⟩) (.ok true)) (demoManager "" 0) (textParams "A")
        (freshWorld emptyFS)).2.1.messageID = 7 :=
  (setStatus_unset_sends_once (fixedBot (.ok ⟨7⟩) (.ok ⟨7⟩) (.ok true)) (demoManager "" 0)
    (textParams "A") (freshWorld emptyFS) rfl).2.2.1 ⟨7⟩ rfl

/-- C2: with a current message `k ≠ 0` whose edit fails, `setStatus` issues
exactly three requests in this order: the edit of `k`, one delete of `k`, one
send of the params; whatever the delete returned, the outcome is that of the
send: on success with `msg` the result is `nil` and `messageID = msg.ID`, on
failure with `err` the result is `err` and `messageID = 0`. -/
theorem setStatus_edit_failure_fallback {M : Models} {σ : Type} (T : Transport M σ)
    (s : StatusManager M σ) (p : StatusParams M) (w : World M σ) (e : GoError)
    (h : s.messageID ≠ 0)
    (he : (T.EditMessageText s.bot (editRequest s p) w.ext).1 = .error e) :
    ((emitted w (setStatus T s p w).2.2).filter Event.isRequest =
        [.edit (editRequest s p) (.error e),
         .delete (deleteRequest s)
           (T.DeleteMessage s.bot (deleteRequest s)
             (T.EditMessageText s.bot (editRequest s p) w.ext).2).1,
         .send (sendRequest s p)
           (T.SendMessage s.bot (sendRequest s p)
             (T.DeleteMessage s.bot (deleteRequest s)
               (T.EditMessageText s.bot (editRequest s p) w.ext).2).2).1]) ∧
    ((editRequest s p).MessageID = s.messageID ∧ (deleteRequest s).MessageID = s.messageID) ∧
    (∀ msg,
      (T.SendMessage s.bot (sendRequest s p)
        (T.DeleteMessage s.bot (deleteRequest s)
          (T.EditMessageText s.bot (editRequest s p) w.ext).2).2).1 = .ok msg →
      (setStatus T s p w).1 = none ∧ (setStatus T s p w).2.1.messageID = msg.ID) ∧
    (∀ err,
      (T.SendMessage s.bot (sendRequest s p)
        (T.DeleteMessage s.bot (deleteRequest s)
          (T.EditMessageText s.bot (editRequest s p) w.ext).2).2).1 = .error err →
      (setStatus T s p w).1 = some err ∧ (setStatus T s p w).2.1.messageID = 0) := by
  have hreq : sendRequest { s with messageID := 0 } p = sendRequest s p := rfl
  rw [setStatus_edit_error T s p w e h he]
  refine ⟨?_, ⟨rfl, rfl⟩, ?_, ?_⟩
  · rcases hs : (T.SendMessage s.bot (sendRequest s p)
        (T.DeleteMessage s.bot (deleteRequest s)
          (T.EditMessageText s.bot (editRequest s p) w.ext).2).2).1 with err | msg
    · rw [setStatus_zero_error T _ p _ err rfl (by rw [hreq]; exact hs)]
      simp only [List.append_assoc, emitted_append, hreq]
      rcases (T.DeleteMessage s.bot (deleteRequest s)
          (T.EditMessageText s.bot (editRequest s p) w.ext).2).1 with e2 | b
      · simp [Event.isRequest, Event.isSend, Event.isEdit, Event.isDelete, deleteLog]
      · cases b <;> simp [Event.isRequest, Event.isSend, Event.isEdit, Event.isDelete, deleteLog]
    · rw [setStatus_zero_ok T _ p _ msg rfl (by rw [hreq]; exact hs)]
      simp only [List.append_assoc, emitted_append, hreq]
      rcases (T.DeleteMessage s.bot (deleteRequest s)
          (T.EditMessageText s.bot (editRequest s p) w.ext).2).1 with e2 | b
      · simp [Event.isRequest, Event.isSend, Event.isEdit, Event.isDelete, deleteLog]
      · cases b <;> simp [Event.isRequest, Event.isSend, Event.isEdit, Event.isDelete, deleteLog]
  · intro msg hs
    rw [setStatus_zero_ok T _ p _ msg rfl (by rw [hreq]; exact hs)]
    exact ⟨rfl, rfl⟩
  · intro err hs
    rw [setStatus_zero_error T _ p _ err rfl (by rw [hreq]; exact hs)]
    exact ⟨rfl, rfl⟩

/-- C2 at the input of the specification: `messageID = 7`, the edit of 7 with
text "C" fails, the delete of 7 is attempted (and reports "not deleted"), the
send returns 9; the identifier ends as 9 and no error is returned. -/
theorem setStatus_edit_failure_fallback_witness :
    (emitted (freshWorld emptyFS)
        (setStatus (fixedBot (.ok ⟨9⟩) (.error ⟨"message cannot be edited"⟩) (.ok false))
          (demoManager "" 7) (textParams "C") (freshWorld emptyFS)).2.2).filter Event.isRequest =
      [.edit (editRequest (demoManager "" 7) (textParams "C"))
          (.error ⟨"message cannot be edited"⟩),
       .delete { ChatID := some (-1001), MessageID := 7 } (.ok false),
       .send (sendRequest (demoManager "" 7) (textParams "C")) (.ok ⟨9⟩)] ∧
    (setStatus (fixedBot (.ok ⟨9⟩) (.error ⟨"message cannot be edited"⟩) (.ok false))
        (demoManager "" 7) (textParams "C") (freshWorld emptyFS)).1 = none ∧
    (setStatus (fixedBot (.ok ⟨9⟩) (.error ⟨"message cannot be edited"⟩) (.ok false))
        (demoManager "" 7) (textParams "C") (freshWorld emptyFS)).2.1.messageID = 9 :=
  ⟨(setStatus_edit_failure_fallback
      (fixedBot (.ok ⟨9⟩) (.error ⟨"message cannot be edited"⟩) (.ok false))
      (demoManager "" 7) (textParams "C") (freshWorld emptyFS) ⟨"message cannot be edited"⟩
      (by decide) rfl).1,
    (setStatus_edit_failure_fallback
      (fixedBot (.ok ⟨9⟩) (.error ⟨"message cannot be edited"⟩) (.ok false))
      (demoManager "" 7) (textParams "C") (freshWorld emptyFS) ⟨"message cannot be edited"⟩
      (by decide) rfl).2.2.1 ⟨9⟩ rfl⟩

theorem with_messageID_self {M : Models} {σ : Type} (s : StatusManager M σ) (k : Int)
    (h : s.messageID = k) : { s with messageID := k } = s := by
  subst h
  rfl

/-- Every call of `setStatus` returns, with one of the five outcomes; the
configuration, the handle and the file system are untouched. -/
theorem setStatus_outcome {M : Models} {σ : Type} (T : Transport M σ)
    (s : StatusManager M σ) (p : StatusParams M) (w : World M σ) :
    ∃ (err : Option GoError) (id : Int) (evs : List (Event M)) (x : σ),
      setStatus T s p w =
        (err, { s with messageID := id }, { ext := x, fs := w.fs, trace := w.trace ++ evs }) ∧
      Outcome s p err id evs := by
  have hreq : sendRequest { s with messageID := 0 } p = sendRequest s p := rfl
  by_cases h : s.messageID = 0
  · rcases hs : (T.SendMessage s.bot (sendRequest s p) w.ext).1 with err | msg
    · refine ⟨_, _, _, (T.SendMessage s.bot (sendRequest s p) w.ext).2, ?_,
        Outcome.sendFailed err h⟩
      rw [setStatus_zero_error T s p w err h hs, with_messageID_self s 0 h]
    · exact ⟨_, _, _, _, setStatus_zero_ok T s p w msg h hs, Outcome.sendOk msg h⟩
  · rcases he : (T.EditMessageText s.bot (editRequest s p) w.ext).1 with e | m
    · rw [setStatus_edit_error T s p w e h he]
      rcases hs : (T.SendMessage s.bot (sendRequest s p)
        (T.DeleteMessage s.bot (deleteRequest s)
          (T.EditMessageText s.bot (editRequest s p) w.ext).2).2).1 with err | msg
      · refine ⟨_, _, _, (T.SendMessage s.bot (sendRequest s p)
          (T.DeleteMessage s.bot (deleteRequest s)
            (T.EditMessageText s.bot (editRequest s p) w.ext).2).2).2, ?_,
          Outcome.fallbackFailed e
          (T.DeleteMessage s.bot (deleteRequest s)
            (T.EditMessageText s.bot (editRequest s p) w.ext).2).1 err h⟩
        rw [setStatus_zero_error T _ p _ err rfl (by rw [hreq]; exact hs)]
        simp [hreq]
      · refine ⟨_, _, _, (T.SendMessage s.bot (sendRequest s p)
          (T.DeleteMessage s.bot (deleteRequest s)
            (T.EditMessageText s.bot (editRequest s p) w.ext).2).2).2, ?_,
          Outcome.fallbackOk e
          (T.DeleteMessage s.bot (deleteRequest s)
            (T.EditMessageText s.bot (editRequest s p) w.ext).2).1 msg h⟩
        rw [setStatus_zero_ok T _ p _ msg rfl (by rw [hreq]; exact hs)]
        simp [hreq]
    · refine ⟨_, _, _, (T.EditMessageText s.bot (editRequest s p) w.ext).2, ?_,
        Outcome.editOk m h⟩
      rw [setStatus_edit_ok T s p w m h he, with_messageID_self s _ rfl]

/-! ## Sequences of reconciliations -/

theorem deleteLog_assigned {M : Models} (d : Except GoError Bool) :
    (deleteLog d : List (Event M)).filterMap Event.assigned = [] := by
  rcases d with e | b
  · rfl
  · cases b <;> rfl

theorem deleteLog_is_log {M : Models} (d : Except GoError Bool) (ev : Event M)
    (h : ev ∈ (deleteLog d : List (Event M))) : ∃ lvl msg err, ev = .log lvl msg err := by
  rcases d with e | b
  · simp [deleteLog] at h
    exact ⟨_, _, _, h⟩
  · cases b
    · simp [deleteLog] at h
      exact ⟨_, _, _, h⟩
    · simp [deleteLog] at h

theorem deleteLog_countP {M : Models} (d : Except GoError Bool) (q : Event M → Bool)
    (hq : ∀ lvl msg err, q (.log lvl msg err) = false) :
    (deleteLog d : List (Event M)).countP q = 0 := by
  rw [List.countP_eq_zero]
  intro ev hev
  obtain ⟨lvl, msg, err, rfl⟩ := deleteLog_is_log d ev hev
  simp [hq]

theorem reconcileAll_outcome {M : Models} {σ : Type} (T : Transport M σ)
    (ps : List (StatusParams M)) (s : StatusManager M σ) (w : World M σ) :
    ∃ (id : Int) (evs : List (Event M)) (x : σ),
      reconcileAll T ps s w =
        ({ s with messageID := id }, { ext := x, fs := w.fs, trace := w.trace ++ evs }) ∧
      RunOutcome s.toConfig s.bot s.messageID ps id evs := by
  induction ps generalizing s w with
  | nil =>
    exact ⟨s.messageID, [], w.ext, by simp [reconcileAll], RunOutcome.nil _⟩
  | cons p ps ih =>
    obtain ⟨err, id1, evs1, x1, heq, hout⟩ := setStatus_outcome T s p w
    obtain ⟨id, evs2, x, heq2, hrun⟩ :=
      ih { s with messageID := id1 } { ext := x1, fs := w.fs, trace := w.trace ++ evs1 }
    refine ⟨id, evs1 ++ evs2, x, ?_, RunOutcome.cons _ p ps err id1 evs1 id evs2 hout hrun⟩
    simp only [reconcileAll, heq, heq2, List.append_assoc]

theorem reconcileAll_append {M : Models} {σ : Type} (T : Transport M σ)
    (ps1 ps2 : List (StatusParams M)) (s : StatusManager M σ) (w : World M σ) :
    reconcileAll T (ps1 ++ ps2) s w =
      reconcileAll T ps2 (reconcileAll T ps1 s w).1 (reconcileAll T ps1 s w).2 := by
  induction ps1 generalizing s w with
  | nil => rfl
  | cons p ps ih =>
    show reconcileAll T (ps ++ ps2) _ _ = _
    rw [ih]
    rfl

/-- One reconciliation whose edits all succeed: from a non-zero identifier
nothing is sent or deleted and the identifier stays; from 0 at most one send
creates a message, and only that send changes the identifier. -/
theorem Outcome.of_no_failed_edit {M : Models} {σ : Type} {s : StatusManager M σ}
    {p : StatusParams M} {err : Option GoError} {id : Int} {evs : List (Event M)}
    (h : Outcome s p err id evs) (hedit : ∀ ev ∈ evs, ev.isFailedEdit = false) :
    (s.messageID ≠ 0 → id = s.messageID ∧ evs.countP Event.isSend = 0 ∧
      evs.countP Event.isDelete = 0 ∧ evs.countP Event.isCreatingSend = 0) ∧
    (s.messageID = 0 → evs.countP Event.isCreatingSend = (if id = 0 then 0 else 1)) := by
  cases h with
  | sendFailed e h0 => simp [h0, List.countP_cons, Event.isCreatingSend]
  | sendOk msg h0 =>
    by_cases hm : msg.ID = 0 <;> simp [h0, hm, List.countP_cons, Event.isCreatingSend]
  | editOk msg hk =>
    simp [hk, List.countP_cons, Event.isCreatingSend, Event.isSend, Event.isDelete]
  | fallbackFailed e d e2 hk =>
    exact absurd (hedit (.edit (editRequest s p) (.error e)) (by simp))
      (by simp [Event.isFailedEdit])
  | fallbackOk e d msg hk =>
    exact absurd (hedit (.edit (editRequest s p) (.error e)) (by simp))
      (by simp [Event.isFailedEdit])

theorem RunOutcome.run_of_no_failed_edit {M : Models} {σ : Type} {c : Config M σ} {b : M.Bot}
    {k : Int} {ps : List (StatusParams M)} {id : Int} {evs : List (Event M)}
    (h : RunOutcome c b k ps id evs) (hedit : ∀ ev ∈ evs, ev.isFailedEdit = false) :
    (k ≠ 0 → id = k ∧ evs.countP Event.isSend = 0 ∧
      evs.countP Event.isDelete = 0 ∧ evs.countP Event.isCreatingSend = 0) ∧
    evs.countP Event.isCreatingSend ≤ 1 := by
  induction h with
  | nil k => simp
  | cons k p ps err id1 evs1 id evs2 h1 h2 ih =>
    have hedit1 : ∀ ev ∈ evs1, ev.isFailedEdit = false :=
      fun ev hev => hedit ev (List.mem_append_left _ hev)
    have hedit2 : ∀ ev ∈ evs2, ev.isFailedEdit = false :=
      fun ev hev => hedit ev (List.mem_append_right _ hev)
    obtain ⟨ihk, ihle⟩ := ih hedit2
    obtain ⟨hstep, hzero⟩ := h1.of_no_failed_edit hedit1
    simp only [List.countP_append]
    constructor
    · intro hk
      obtain ⟨hid, hs, hd, hc⟩ := hstep hk
      have hid1 : id1 ≠ 0 := by rw [hid]; exact hk
      obtain ⟨hid2, hs2, hd2, hc2⟩ := ihk hid1
      exact ⟨by rw [hid2, hid], by omega, by omega, by omega⟩
    · by_cases hk : k = 0
      · have hc := hzero hk
        by_cases hid1 : id1 = 0
        · rw [hc, if_pos hid1]; omega
        · obtain ⟨_, _, _, hc2⟩ := ihk hid1
          rw [hc, if_neg hid1, hc2]
      · obtain ⟨_, _, _, hc⟩ := hstep hk
        omega

theorem chain_glue (l1 : List Int) (a : Int) (t : List Int)
    (h1 : List.Chain' sameOrReset l1) (h2 : List.Chain' sameOrReset (a :: t))
    (hlast : l1.getLast? = some a) : List.Chain' sameOrReset (l1 ++ t) := by
  rw [List.chain'_append]
  refine ⟨h1, (List.chain'_cons'.mp h2).2, ?_⟩
  intro x hx y hy
  rw [hlast] at hx
  cases hx
  exact (List.chain'_cons'.mp h2).1 y hy

theorem Outcome.history {M : Models} {σ : Type} {s : StatusManager M σ}
    {p : StatusParams M} {err : Option GoError} {id : Int} {evs : List (Event M)}
    (h : Outcome s p err id evs) :
    List.Chain' sameOrReset (idHistory s.messageID evs) ∧
    (idHistory s.messageID evs).getLast? = some id ∧
    (∀ old new, Event.storeID old new ∈ evs → old = 0) := by
  cases h with
  | sendFailed e h0 => simp [idHistory, Event.assigned, h0]
  | sendOk msg h0 => simp [idHistory, Event.assigned, h0, sameOrReset]
  | editOk msg hk => simp [idHistory, Event.assigned]
  | fallbackFailed e d e2 hk =>
    refine ⟨?_, ?_, ?_⟩
    · simp [idHistory, Event.assigned, deleteLog_assigned, sameOrReset]
    · simp [idHistory, Event.assigned, deleteLog_assigned]
    · intro old new hmem
      simp only [List.mem_append, List.mem_cons, List.mem_singleton, List.not_mem_nil,
        or_false, false_or] at hmem
      rcases hmem with (hmem | hmem) | hmem
      · simp at hmem
      · obtain ⟨lvl, msg, err, hlog⟩ := deleteLog_is_log d _ hmem
        simp at hlog
      · simp at hmem
  | fallbackOk e d msg hk =>
    refine ⟨?_, ?_, ?_⟩
    · simp [idHistory, Event.assigned, deleteLog_assigned, sameOrReset]
    · simp [idHistory, Event.assigned, deleteLog_assigned]
    · intro old new hmem
      simp only [List.mem_append, List.mem_cons, List.mem_singleton, List.not_mem_nil,
        or_false, false_or] at hmem
      rcases hmem with (hmem | hmem) | hmem
      · simp at hmem
      · obtain ⟨lvl, msg, err, hlog⟩ := deleteLog_is_log d _ hmem
        simp at hlog
      · simp at hmem
        exact hmem.1

theorem RunOutcome.run_history {M : Models} {σ : Type} {c : Config M σ} {b : M.Bot}
    {k : Int} {ps : List (StatusParams M)} {id : Int} {evs : List (Event M)}
    (h : RunOutcome c b k ps id evs) :
    List.Chain' sameOrReset (idHistory k evs) ∧
    (idHistory k evs).getLast? = some id ∧
    (∀ old new, Event.storeID old new ∈ evs → old = 0) := by
  induction h with
  | nil k => simp [idHistory]
  | cons k p ps err id1 evs1 id evs2 h1 h2 ih =>
    obtain ⟨hc1, hl1, hs1⟩ := h1.history
    obtain ⟨hc2, hl2, hs2⟩ := ih
    have happ : idHistory k (evs1 ++ evs2) =
        idHistory k evs1 ++ evs2.filterMap Event.assigned := by
      simp [idHistory, List.filterMap_append]
    refine ⟨?_, ?_, ?_⟩
    · rw [happ]
      exact chain_glue _ id1 _ hc1 hc2 hl1
    · rw [happ]
      rcases hempty : evs2.filterMap Event.assigned with _ | ⟨a, t⟩
      · simp only [List.append_nil, hl1]
        simp only [idHistory, hempty, List.getLast?_singleton] at hl2
        exact hl2
      · simp only [idHistory, hempty] at hl2
        rw [List.getLast?_append_of_ne_nil _ (by simp)]
        rw [List.getLast?_cons_cons] at hl2
        exact hl2
    · intro old new hmem
      rcases List.mem_append.mp hmem with hmem | hmem
      · exact hs1 old new hmem
      · exact hs2 old new hmem

/-- C3 as stated fails: with a transport whose sends fail, two reconciliations
from `messageID = 0` issue two send requests although no edit request fails. -/
theorem second_send_after_failed_send :
    (∀ ev ∈ emitted (freshWorld emptyFS)
        (reconcileAll (fixedBot (.error ⟨"timeout"⟩) (.ok ⟨7⟩) (.ok true))
          [textParams "A", textParams "B"] (demoManager "" 0) (freshWorld emptyFS)).2,
      ev.isFailedEdit = false) ∧
    (emitted (freshWorld emptyFS)
        (reconcileAll (fixedBot (.error ⟨"timeout"⟩) (.ok ⟨7⟩) (.ok true))
          [textParams "A", textParams "B"] (demoManager "" 0) (freshWorld emptyFS)).2).countP
      Event.isSend = 2 := by
  have key : reconcileAll (fixedBot (.error ⟨"timeout"⟩) (.ok ⟨7⟩) (.ok true))
      [textParams "A", textParams "B"] (demoManager "" 0) (freshWorld emptyFS) =
      (demoManager "" 0,
        { ext := (), fs := emptyFS, trace := (freshWorld emptyFS).trace ++
          [.log .warn "Message ID is not set; sending new message..." none,
           .send (sendRequest (demoManager "" 0) (textParams "A")) (.error ⟨"timeout"⟩),
           .log .warn "Message ID is not set; sending new message..." none,
           .send (sendRequest (demoManager "" 0) (textParams "B")) (.error ⟨"timeout"⟩)] }) := by
    simp only [reconcileAll]
    rw [setStatus_zero_error (fixedBot (.error ⟨"timeout"⟩) (.ok ⟨7⟩) (.ok true))
      (demoManager "" 0) (textParams "A") (freshWorld emptyFS) ⟨"timeout"⟩ rfl rfl]
    simp only []
    rw [setStatus_zero_error (fixedBot (.error ⟨"timeout"⟩) (.ok ⟨7⟩) (.ok true))
      (demoManager "" 0) (textParams "B") _ ⟨"timeout"⟩ rfl rfl]
    rfl
  rw [key, emitted_append]
  simp [Event.isFailedEdit, Event.isSend, List.countP_cons]

/-- C3, amended: in a sequence of reconciliations in which every edit request
succeeds, at most one send request creates a message (is answered with a
non-zero identifier); from a non-zero `messageID` nothing is sent or deleted and
the identifier is the same at the end; once the identifier is non-zero after a
prefix of the sequence it has that value after the whole sequence; and a single
reconciliation from `messageID = k ≠ 0` whose edit succeeds issues the edit
only, returns `nil` and leaves `messageID = k`. -/
theorem reconcileAll_idempotent_when_edits_succeed {M : Models} {σ : Type}
    (T : Transport M σ) (ps : List (StatusParams M)) (s : StatusManager M σ) (w : World M σ)
    (hedit : ∀ ev ∈ emitted w (reconcileAll T ps s w).2, ev.isFailedEdit = false) :
    (emitted w (reconcileAll T ps s w).2).countP Event.isCreatingSend ≤ 1 ∧
    (s.messageID ≠ 0 →
      (reconcileAll T ps s w).1.messageID = s.messageID ∧
      (emitted w (reconcileAll T ps s w).2).countP Event.isSend = 0 ∧
      (emitted w (reconcileAll T ps s w).2).countP Event.isDelete = 0) ∧
    (∀ ps1 ps2, ps = ps1 ++ ps2 → (reconcileAll T ps1 s w).1.messageID ≠ 0 →
      (reconcileAll T ps s w).1.messageID = (reconcileAll T ps1 s w).1.messageID) ∧
    (∀ p msg, s.messageID ≠ 0 →
      (T.EditMessageText s.bot (editRequest s p) w.ext).1 = .ok msg →
      (emitted w (setStatus T s p w).2.2).filter Event.isRequest =
          [.edit (editRequest s p) (.ok msg)] ∧
      (setStatus T s p w).1 = none ∧
      (setStatus T s p w).2.1.messageID = s.messageID) := by
  refine ⟨?_, ?_, ?_, ?_⟩
  · obtain ⟨id, evs, x, heq, hrun⟩ := reconcileAll_outcome T ps s w
    rw [heq, emitted_append] at hedit ⊢
    exact (hrun.run_of_no_failed_edit hedit).2
  · intro hk
    obtain ⟨id, evs, x, heq, hrun⟩ := reconcileAll_outcome T ps s w
    rw [heq, emitted_append] at hedit ⊢
    obtain ⟨hid, hs, hd, _⟩ := (hrun.run_of_no_failed_edit hedit).1 hk
    exact ⟨hid, hs, hd⟩
  · intro ps1 ps2 hps hk
    subst hps
    rw [reconcileAll_append] at hedit ⊢
    obtain ⟨id1, evs1, x1, heq1, hrun1⟩ := reconcileAll_outcome T ps1 s w
    rw [heq1] at hedit hk ⊢
    obtain ⟨id2, evs2, x2, heq2, hrun2⟩ := reconcileAll_outcome T ps2
      { s with messageID := id1 } { ext := x1, fs := w.fs, trace := w.trace ++ evs1 }
    simp only [heq2] at hedit ⊢
    rw [List.append_assoc, emitted_append] at hedit
    have hedit2 : ∀ ev ∈ evs2, ev.isFailedEdit = false :=
      fun ev hev => hedit ev (List.mem_append_right _ hev)
    exact ((hrun2.run_of_no_failed_edit hedit2).1 hk).1
  · intro p msg hk he
    rw [setStatus_edit_ok T s p w msg hk he, emitted_append]
    simp [Event.isRequest, Event.isSend, Event.isEdit, Event.isDelete]

/-- C3 at the scenario of the specification: the identifier is 7 and the edits
with texts "B" and "B2" succeed; nothing is sent and the identifier stays 7. -/
theorem reconcileAll_idempotent_when_edits_succeed_witness :
    (reconcileAll (fixedBot (.ok ⟨8⟩) (.ok ⟨7⟩) (.ok true))
        [textParams "B", textParams "B2"] (demoManager "" 7) (freshWorld emptyFS)).1.messageID
      = 7 ∧
    (emitted (freshWorld emptyFS)
        (reconcileAll (fixedBot (.ok ⟨8⟩) (.ok ⟨7⟩) (.ok true))
          [textParams "B", textParams "B2"] (demoManager "" 7) (freshWorld emptyFS)).2).countP
      Event.isSend = 0 := by
  have key : reconcileAll (fixedBot (.ok ⟨8⟩) (.ok ⟨7⟩) (.ok true))
      [textParams "B", textParams "B2"] (demoManager "" 7) (freshWorld emptyFS) =
      (demoManager "" 7,
        { ext := (), fs := emptyFS, trace := (freshWorld emptyFS).trace ++
          [.log .debug "Editing status message..." none,
           .edit (editRequest (demoManager "" 7) (textParams "B")) (.ok ⟨7⟩),
           .log .debug "Editing status message..." none,
           .edit (editRequest (demoManager "" 7) (textParams "B2")) (.ok ⟨7⟩)] }) := by
    simp only [reconcileAll]
    rw [setStatus_edit_ok (fixedBot (.ok ⟨8⟩) (.ok ⟨7⟩) (.ok true))
      (demoManager "" 7) (textParams "B") (freshWorld emptyFS) ⟨7⟩ (by decide) rfl]
    simp only []
    rw [setStatus_edit_ok (fixedBot (.ok ⟨8⟩) (.ok ⟨7⟩) (.ok true))
      (demoManager "" 7) (textParams "B2") _ ⟨7⟩ (by decide) rfl]
    rfl
  have hedit : ∀ ev ∈ emitted (freshWorld emptyFS)
      (reconcileAll (fixedBot (.ok ⟨8⟩) (.ok ⟨7⟩) (.ok true))
        [textParams "B", textParams "B2"] (demoManager "" 7) (freshWorld emptyFS)).2,
      ev.isFailedEdit = false := by
    rw [key, emitted_append]
    simp [Event.isFailedEdit]
  have h := (reconcileAll_idempotent_when_edits_succeed
    (fixedBot (.ok ⟨8⟩) (.ok ⟨7⟩) (.ok true)) [textParams "B", textParams "B2"]
    (demoManager "" 7) (freshWorld emptyFS) hedit).2.1 (by decide)
  exact ⟨h.1, h.2.1⟩

/-- C4: for every initial identifier, every sequence of reconciliations and
every behaviour of the transport, each assignment of a send-returned identifier
to `messageID` finds `messageID = 0`, and in the sequence of values taken by
`messageID` a non-zero value is never directly followed by a different non-zero
value. -/
theorem single_current_message {M : Models} {σ : Type} (T : Transport M σ)
    (ps : List (StatusParams M)) (s : StatusManager M σ) (w : World M σ) :
    (∀ old new, Event.storeID old new ∈ emitted w (reconcileAll T ps s w).2 → old = 0) ∧
    List.Chain' (fun a b : Int => a ≠ 0 → b ≠ 0 → a = b)
      (idHistory s.messageID (emitted w (reconcileAll T ps s w).2)) ∧
    (idHistory s.messageID (emitted w (reconcileAll T ps s w).2)).getLast? =
      some (reconcileAll T ps s w).1.messageID := by
  obtain ⟨id, evs, x, heq, hrun⟩ := reconcileAll_outcome T ps s w
  rw [heq, emitted_append]
  obtain ⟨hc, hl, hs⟩ := hrun.run_history
  exact ⟨hs, hc, hl⟩

/-- C4 at the scenario of the specification: from no message, text "A" is sent
and gets identifier 7, text "B" is edited in, the edit with text "C" fails and
the fresh send gets identifier 9.  The identifier takes the values 0, 7, 0, 9. -/
theorem single_current_message_witness :
    idHistory scenarioManager.messageID
        (emitted scenarioWorld
          (reconcileAll scenarioBot [textParams "A", textParams "B", textParams "C"]
            scenarioManager scenarioWorld).2) = [0, 7, 0, 9] ∧
    List.Chain' (fun a b : Int => a ≠ 0 → b ≠ 0 → a = b) [0, 7, 0, 9] := by
  have key : idHistory scenarioManager.messageID
      (emitted scenarioWorld
        (reconcileAll scenarioBot [textParams "A", textParams "B", textParams "C"]
          scenarioManager scenarioWorld).2) = [0, 7, 0, 9] := by
    simp only [reconcileAll, setStatus_eq_unrolled]
    decide
  have h := (single_current_message scenarioBot
    [textParams "A", textParams "B", textParams "C"] scenarioManager scenarioWorld).2.1
  rw [key] at h
  exact ⟨key, h⟩

/-- The result of the fallback when its send succeeds. -/
theorem fallback_send_ok {M : Models} {σ : Type} (T : Transport M σ)
    (s : StatusManager M σ) (p : StatusParams M) (w : World M σ) (e : GoError)
    (h : s.messageID ≠ 0)
    (he : (T.EditMessageText s.bot (editRequest s p) w.ext).1 = .error e) (msg : Message)
    (hs : (T.SendMessage s.bot (sendRequest s p)
        (T.DeleteMessage s.bot (deleteRequest s)
          (T.EditMessageText s.bot (editRequest s p) w.ext).2).2).1 = .ok msg) :
    (setStatus T s p w).1 = none ∧ (setStatus T s p w).2.1.messageID = msg.ID := by
  have hreq : sendRequest { s with messageID := 0 } p = sendRequest s p := rfl
  rw [setStatus_edit_error T s p w e h he,
    setStatus_zero_ok T _ p _ msg rfl (by rw [hreq]; exact hs)]
  exact ⟨rfl, rfl⟩

theorem UpdateStatus_outcome {M : Models} {σ : Type} (T : Transport M σ)
    (s : StatusManager M σ) (f : StatusFunc M σ) (w : World M σ) :
    ∃ (err : Option GoError) (id : Int) (evs : List (Event M)) (x : σ),
      UpdateStatus T s f w =
        ({ s with messageID := id },
          { ext := x, fs := w.fs,
            trace := w.trace ++
              (.log .debug "Updating status..." none :: evs ++ [reportLog err]) }) ∧
      Outcome s (f w.ext).1 err id evs ∧
      (setStatus T s (f w.ext).1
        { ext := (f w.ext).2, fs := w.fs,
          trace := w.trace ++ [.log .debug "Updating status..." none] }).1 = err := by
  obtain ⟨err, id, evs, x, heq, hout⟩ := setStatus_outcome T s (f w.ext).1
    { ext := (f w.ext).2, fs := w.fs,
      trace := w.trace ++ [.log .debug "Updating status..." none] }
  refine ⟨err, id, evs, x, ?_, hout, by rw [heq]⟩
  simp only [UpdateStatus, World.emit, heq]
  cases err <;> simp [reportLog]

theorem UpdateStatus_fst {M : Models} {σ : Type} (T : Transport M σ)
    (s : StatusManager M σ) (f : StatusFunc M σ) (w : World M σ) :
    (UpdateStatus T s f w).1 =
      (setStatus T s (f w.ext).1
        { ext := (f w.ext).2, fs := w.fs,
          trace := w.trace ++ [.log .debug "Updating status..." none] }).2.1 := by
  simp only [UpdateStatus, World.emit]
  split <;> rfl

theorem last_of_framed {α : Type} (a : α) (l : List α) (b : α) :
    (a :: l ++ [b]).getLast? = some b := by
  rw [List.getLast?_append]
  simp

theorem mem_deleteLog_send {M : Models} (d : Except GoError Bool) (req : SendMessageParams M)
    (res : Except GoError Message) : Event.send req res ∉ (deleteLog d : List (Event M)) := by
  intro h
  obtain ⟨lvl, msg, err, hlog⟩ := deleteLog_is_log d _ h
  simp at hlog

theorem deleteLog_not_failed_send {M : Models} (d : Except GoError Bool) :
    ∀ ev ∈ (deleteLog d : List (Event M)), ev.isFailedSend = false := by
  intro ev h
  obtain ⟨lvl, msg, err, rfl⟩ := deleteLog_is_log d _ h
  rfl

theorem Outcome.error_iff {M : Models} {σ : Type} {s : StatusManager M σ}
    {p : StatusParams M} {err : Option GoError} {id : Int} {evs : List (Event M)}
    (h : Outcome s p err id evs) :
    (∀ e, err = some e ↔ ∃ req, Event.send req (.error e) ∈ evs) ∧
    (err = none ↔ ∀ ev ∈ evs, ev.isFailedSend = false) ∧
    evs.countP Event.isSend ≤ 1 := by
  cases h with
  | sendFailed e0 h0 =>
    refine ⟨fun e => ?_, ?_, ?_⟩
    · simp [eq_comm]
    · simp [Event.isFailedSend]
    · simp [List.countP_cons, Event.isSend]
  | sendOk msg h0 =>
    refine ⟨fun e => ?_, ?_, ?_⟩
    · simp
    · simp [Event.isFailedSend]
    · simp [List.countP_cons, Event.isSend]
  | editOk msg hk =>
    refine ⟨fun e => ?_, ?_, ?_⟩
    · simp
    · simp [Event.isFailedSend]
    · simp [List.countP_cons, Event.isSend]
  | fallbackFailed e0 d e2 hk =>
    refine ⟨fun e => ?_, ?_, ?_⟩
    · simp [mem_deleteLog_send, eq_comm]
    · constructor
      · intro hnone
        cases hnone
      · intro hall
        have hbad := hall (.send (sendRequest s p) (.error e2)) (by simp)
        simp [Event.isFailedSend] at hbad
    · simp [List.countP_cons, List.countP_append, Event.isSend,
        deleteLog_countP d Event.isSend (fun _ _ _ => rfl)]
  | fallbackOk e0 d msg hk =>
    refine ⟨fun e => ?_, ?_, ?_⟩
    · simp [mem_deleteLog_send]
    · refine ⟨fun _ ev hev => ?_, fun _ => rfl⟩
      simp only [List.mem_append, List.mem_cons, List.mem_singleton, List.not_mem_nil,
        or_false] at hev
      rcases hev with (hev | hev) | hev
      · rcases hev with rfl | rfl | rfl | rfl <;> rfl
      · exact deleteLog_not_failed_send d ev hev
      · rcases hev with rfl | rfl | rfl | rfl <;> rfl
    · simp [List.countP_cons, List.countP_append, Event.isSend,
        deleteLog_countP d Event.isSend (fun _ _ _ => rfl)]

/-- C10: `setStatus` returns an error exactly when it issued a send request
that failed, and the error is that of the send (at most one send is issued); an
edit or delete failure is never returned.  `UpdateStatus` ends with the log line
"Status updated" when no send failed, and with "Failed to update status"
carrying the error of the failed send otherwise; in particular, when the edit
fails and the fallback send succeeds, `setStatus` returns `nil` and
`UpdateStatus` reports a successful update. -/
theorem setStatus_error_iff_send_failed {M : Models} {σ : Type} (T : Transport M σ)
    (s : StatusManager M σ) (p : StatusParams M) (f : StatusFunc M σ) (w : World M σ) :
    (∀ e, (setStatus T s p w).1 = some e ↔
      ∃ req, Event.send req (.error e) ∈ emitted w (setStatus T s p w).2.2) ∧
    ((setStatus T s p w).1 = none ↔
      ∀ ev ∈ emitted w (setStatus T s p w).2.2, ev.isFailedSend = false) ∧
    (emitted w (setStatus T s p w).2.2).countP Event.isSend ≤ 1 ∧
    (∀ e msg, s.messageID ≠ 0 →
      (T.EditMessageText s.bot (editRequest s p) w.ext).1 = .error e →
      (T.SendMessage s.bot (sendRequest s p)
        (T.DeleteMessage s.bot (deleteRequest s)
          (T.EditMessageText s.bot (editRequest s p) w.ext).2).2).1 = .ok msg →
      (setStatus T s p w).1 = none) ∧
    ((∀ ev ∈ emitted w (UpdateStatus T s f w).2, ev.isFailedSend = false) →
      (emitted w (UpdateStatus T s f w).2).getLast? =
        some (.log .info "Status updated" none)) ∧
    (∀ req e, Event.send req (.error e) ∈ emitted w (UpdateStatus T s f w).2 →
      (emitted w (UpdateStatus T s f w).2).getLast? =
        some (.log .warn "Failed to update status" (some e))) ∧
    (∀ e msg, s.messageID ≠ 0 →
      (T.EditMessageText s.bot (editRequest s (f w.ext).1) (f w.ext).2).1 = .error e →
      (T.SendMessage s.bot (sendRequest s (f w.ext).1)
        (T.DeleteMessage s.bot (deleteRequest s)
          (T.EditMessageText s.bot (editRequest s (f w.ext).1) (f w.ext).2).2).2).1 = .ok msg →
      (emitted w (UpdateStatus T s f w).2).getLast? =
        some (.log .info "Status updated" none)) := by
  obtain ⟨err, id, evs, x, heq, hout⟩ := setStatus_outcome T s p w
  obtain ⟨uerr, uid, uevs, ux, hueq, huout, huerr⟩ := UpdateStatus_outcome T s f w
  obtain ⟨h1, h2, h3⟩ := hout.error_iff
  obtain ⟨u1, u2, u3⟩ := huout.error_iff
  have hsucc : (∀ ev ∈ emitted w (UpdateStatus T s f w).2, ev.isFailedSend = false) →
      (emitted w (UpdateStatus T s f w).2).getLast? =
        some (.log .info "Status updated" none) := by
    rw [hueq, emitted_append]
    intro hno
    have hnone : uerr = none := u2.mpr (fun ev hev => hno ev (by simp [hev]))
    subst hnone
    exact last_of_framed _ _ _
  refine ⟨?_, ?_, ?_, ?_, hsucc, ?_, ?_⟩
  · rw [heq, emitted_append]
    exact h1
  · rw [heq, emitted_append]
    exact h2
  · rw [heq, emitted_append]
    exact h3
  · intro e msg hk he hs
    exact (fallback_send_ok T s p w e hk he msg hs).1
  · rw [hueq, emitted_append]
    intro req e hmem
    have hin : Event.send req (.error e) ∈ uevs := by
      simp only [List.cons_append, List.mem_cons, List.mem_append, List.mem_singleton] at hmem
      rcases hmem with hmem | hmem | hmem
      · simp at hmem
      · exact hmem
      · cases uerr <;> simp [reportLog] at hmem
    have hsome : uerr = some e := (u1 e).mpr ⟨req, hin⟩
    subst hsome
    exact last_of_framed _ _ _
  · intro e msg hk he hs
    apply hsucc
    rw [hueq, emitted_append]
    have hnone := (fallback_send_ok T s (f w.ext).1
      { ext := (f w.ext).2, fs := w.fs,
        trace := w.trace ++ [.log .debug "Updating status..." none] } e hk he msg hs).1
    intro ev hev
    have hnone2 : uerr = none := by rw [← huerr]; exact hnone
    subst hnone2
    simp only [List.cons_append, List.mem_cons, List.mem_append, List.not_mem_nil,
      or_false] at hev
    rcases hev with hev | hev | hev
    · rw [hev]; rfl
    · exact u2.mp rfl ev hev
    · rw [hev]; rfl

/-- C10 at a concrete input: `messageID = 7`, the edit fails, the delete fails
too, the fallback send returns 9; `UpdateStatus` ends with "Status updated". -/
theorem setStatus_error_iff_send_failed_witness :
    (emitted (freshWorld emptyFS)
      (UpdateStatus (fixedBot (.ok ⟨9⟩) (.error ⟨"message cannot be edited"⟩)
          (.error ⟨"message cannot be deleted"⟩))
        (demoManager "" 7) (demoManager "" 7).StatusFunc (freshWorld emptyFS)).2).getLast? =
      some (.log .info "Status updated" none) :=
  (setStatus_error_iff_send_failed
    (fixedBot (.ok ⟨9⟩) (.error ⟨"message cannot be edited"⟩)
      (.error ⟨"message cannot be deleted"⟩))
    (demoManager "" 7) (textParams "up") (demoManager "" 7).StatusFunc
    (freshWorld emptyFS)).2.2.2.2.2.2 ⟨"message cannot be edited"⟩ ⟨9⟩ (by decide) rfl rfl

theorem Outcome.countP_updating {M : Models} {σ : Type} {s : StatusManager M σ}
    {p : StatusParams M} {err : Option GoError} {id : Int} {evs : List (Event M)}
    (h : Outcome s p err id evs) : evs.countP Event.isUpdating = 0 := by
  rw [List.countP_eq_zero]
  intro ev hev
  cases h with
  | sendFailed e h0 =>
    simp only [List.mem_cons, List.mem_singleton, List.not_mem_nil, or_false] at hev
    rcases hev with rfl | rfl <;> simp [Event.isUpdating]
  | sendOk msg h0 =>
    simp only [List.mem_cons, List.mem_singleton, List.not_mem_nil, or_false] at hev
    rcases hev with rfl | rfl | rfl <;> simp [Event.isUpdating]
  | editOk msg hk =>
    simp only [List.mem_cons, List.mem_singleton, List.not_mem_nil, or_false] at hev
    rcases hev with rfl | rfl <;> simp [Event.isUpdating]
  | fallbackFailed e d e2 hk =>
    simp only [List.mem_append, List.mem_cons, List.mem_singleton, List.not_mem_nil,
      or_false] at hev
    rcases hev with (hev | hev) | hev
    · rcases hev with rfl | rfl | rfl | rfl <;> simp [Event.isUpdating]
    · rcases d with e3 | b
      · simp [deleteLog] at hev
        subst hev
        simp [Event.isUpdating]
      · cases b <;> simp [deleteLog] at hev
        subst hev
        simp [Event.isUpdating]
    · rcases hev with rfl | rfl | rfl <;> simp [Event.isUpdating]
  | fallbackOk e d msg hk =>
    simp only [List.mem_append, List.mem_cons, List.mem_singleton, List.not_mem_nil,
      or_false] at hev
    rcases hev with (hev | hev) | hev
    · rcases hev with rfl | rfl | rfl | rfl <;> simp [Event.isUpdating]
    · rcases d with e3 | b
      · simp [deleteLog] at hev
        subst hev
        simp [Event.isUpdating]
      · cases b <;> simp [deleteLog] at hev
        subst hev
        simp [Event.isUpdating]
    · rcases hev with rfl | rfl | rfl | rfl <;> simp [Event.isUpdating]

theorem Outcome.countP_writeFile {M : Models} {σ : Type} {s : StatusManager M σ}
    {p : StatusParams M} {err : Option GoError} {id : Int} {evs : List (Event M)}
    (h : Outcome s p err id evs) : evs.countP Event.isWriteFile = 0 := by
  cases h <;>
    simp [List.countP_cons, List.countP_append, Event.isWriteFile,
      deleteLog_countP _ Event.isWriteFile (fun _ _ _ => rfl)]

/-! ## Request conversions -/

/-- C9: `ToSendMessageParams` copies all eleven fields of the params unchanged,
so the params are recoverable from the send request; `ToEditMessageTextParams`
copies exactly `Text`, `ParseMode`, `Entities`, `LinkPreviewOptions` and
`ReplyMarkup` (its other fields keep their zero values), and these equal the
same fields of the send request; hence params that agree on these five fields
yield equal edit requests, whatever their other fields. -/
theorem request_conversions {M : Models} (s : StatusParams M) :
    (s.ToSendMessageParams.Text = s.Text ∧
      s.ToSendMessageParams.ParseMode = s.ParseMode ∧
      s.ToSendMessageParams.Entities = s.Entities ∧
      s.ToSendMessageParams.LinkPreviewOptions = s.LinkPreviewOptions ∧
      s.ToSendMessageParams.DisableNotification = s.DisableNotification ∧
      s.ToSendMessageParams.ProtectContent = s.ProtectContent ∧
      s.ToSendMessageParams.AllowPaidBroadcast = s.AllowPaidBroadcast ∧
      s.ToSendMessageParams.MessageEffectID = s.MessageEffectID ∧
      s.ToSendMessageParams.SuggestedPostParameters = s.SuggestedPostParameters ∧
      s.ToSendMessageParams.ReplyParameters = s.ReplyParameters ∧
      s.ToSendMessageParams.ReplyMarkup = s.ReplyMarkup) ∧
    (∀ s2 : StatusParams M, s.ToSendMessageParams = s2.ToSendMessageParams → s = s2) ∧
    (s.ToEditMessageTextParams.Text = s.ToSendMessageParams.Text ∧
      s.ToEditMessageTextParams.ParseMode = s.ToSendMessageParams.ParseMode ∧
      s.ToEditMessageTextParams.Entities = s.ToSendMessageParams.Entities ∧
      s.ToEditMessageTextParams.LinkPreviewOptions = s.ToSendMessageParams.LinkPreviewOptions ∧
      s.ToEditMessageTextParams.ReplyMarkup = s.ToSendMessageParams.ReplyMarkup) ∧
    (s.ToEditMessageTextParams.ChatID = none ∧ s.ToEditMessageTextParams.MessageID = 0) ∧
    (∀ s2 : StatusParams M,
      s.Text = s2.Text → s.ParseMode = s2.ParseMode → s.Entities = s2.Entities →
      s.LinkPreviewOptions = s2.LinkPreviewOptions → s.ReplyMarkup = s2.ReplyMarkup →
      s.ToEditMessageTextParams = s2.ToEditMessageTextParams) := by
  refine ⟨⟨rfl, rfl, rfl, rfl, rfl, rfl, rfl, rfl, rfl, rfl, rfl⟩, ?_,
    ⟨rfl, rfl, rfl, rfl, rfl⟩, ⟨rfl, rfl⟩, ?_⟩
  · intro s2 h
    cases s
    cases s2
    simp only [StatusParams.ToSendMessageParams, SendMessageParams.mk.injEq, true_and] at h
    simp only [StatusParams.mk.injEq]
    exact h
  · intro s2 h1 h2 h3 h4 h5
    simp only [StatusParams.ToEditMessageTextParams, h1, h2, h3, h4, h5]

/-- C9 at a concrete input: two params with the same text that differ in
`DisableNotification`, `ProtectContent`, `AllowPaidBroadcast` and
`MessageEffectID` give the same edit request. -/
theorem request_conversions_witness :
    (textParams "up").ToEditMessageTextParams =
      ({ textParams "up" with
          DisableNotification := true, ProtectContent := true, AllowPaidBroadcast := true,
          MessageEffectID := "5104841245755180586" } :
        StatusParams plainModels).ToEditMessageTextParams :=
  (request_conversions (textParams "up")).2.2.2.2 _ rfl rfl rfl rfl rfl

/-! ## The update loop -/

theorem reportLog_is_log {M : Models} (o : Option GoError) :
    ∃ lvl msg err, (reportLog o : Event M) = .log lvl msg err := by
  cases o
  · exact ⟨_, _, _, rfl⟩
  · exact ⟨_, _, _, rfl⟩

theorem closingLog_is_log {M : Models} (o : Option GoError) :
    ∃ lvl msg err, (closingLog o : Event M) = .log lvl msg err := by
  cases o
  · exact ⟨_, _, _, rfl⟩
  · exact ⟨_, _, _, rfl⟩

/-- The requests of one call of `setStatus`: one send or edit, plus one send and
one delete when the edit failed, all with the content of the params. -/
theorem Outcome.requests {M : Models} {σ : Type} {s : StatusManager M σ}
    {p : StatusParams M} {err : Option GoError} {id : Int} {evs : List (Event M)}
    (h : Outcome s p err id evs) :
    evs.countP Event.isSend + evs.countP Event.isEdit = 1 + evs.countP Event.isFailedEdit ∧
    evs.countP Event.isDelete = evs.countP Event.isFailedEdit ∧
    ∀ ev ∈ evs, ev.builtFrom p := by
  cases h with
  | sendFailed e h0 =>
    refine ⟨by simp [List.countP_cons, Event.isSend, Event.isEdit, Event.isFailedEdit],
      by simp [List.countP_cons, Event.isDelete, Event.isFailedEdit], ?_⟩
    intro ev hev
    simp only [List.mem_cons, List.mem_singleton, List.not_mem_nil, or_false] at hev
    rcases hev with rfl | rfl
    · trivial
    · exact rfl
  | sendOk msg h0 =>
    refine ⟨by simp [List.countP_cons, Event.isSend, Event.isEdit, Event.isFailedEdit],
      by simp [List.countP_cons, Event.isDelete, Event.isFailedEdit], ?_⟩
    intro ev hev
    simp only [List.mem_cons, List.mem_singleton, List.not_mem_nil, or_false] at hev
    rcases hev with rfl | rfl | rfl
    · trivial
    · exact rfl
    · trivial
  | editOk msg hk =>
    refine ⟨by simp [List.countP_cons, Event.isSend, Event.isEdit, Event.isFailedEdit],
      by simp [List.countP_cons, Event.isDelete, Event.isFailedEdit], ?_⟩
    intro ev hev
    simp only [List.mem_cons, List.mem_singleton, List.not_mem_nil, or_false] at hev
    rcases hev with rfl | rfl
    · trivial
    · exact rfl
  | fallbackFailed e d e2 hk =>
    refine ⟨?_, ?_, ?_⟩
    · simp [List.countP_cons, List.countP_append, Event.isSend, Event.isEdit,
        Event.isFailedEdit, deleteLog_countP d Event.isSend (fun _ _ _ => rfl),
        deleteLog_countP d Event.isEdit (fun _ _ _ => rfl),
        deleteLog_countP d Event.isFailedEdit (fun _ _ _ => rfl)]
    · simp [List.countP_cons, List.countP_append, Event.isDelete, Event.isFailedEdit,
        deleteLog_countP d Event.isDelete (fun _ _ _ => rfl),
        deleteLog_countP d Event.isFailedEdit (fun _ _ _ => rfl)]
    · intro ev hev
      simp only [List.mem_append, List.mem_cons, List.mem_singleton, List.not_mem_nil,
        or_false] at hev
      rcases hev with (hev | hev) | hev
      · rcases hev with rfl | rfl | rfl | rfl
        · trivial
        · exact rfl
        · trivial
        · trivial
      · obtain ⟨lvl, msg, err, rfl⟩ := deleteLog_is_log d ev hev
        trivial
      · rcases hev with rfl | rfl | rfl
        · trivial
        · trivial
        · exact rfl
  | fallbackOk e d msg hk =>
    refine ⟨?_, ?_, ?_⟩
    · simp [List.countP_cons, List.countP_append, Event.isSend, Event.isEdit,
        Event.isFailedEdit, deleteLog_countP d Event.isSend (fun _ _ _ => rfl),
        deleteLog_countP d Event.isEdit (fun _ _ _ => rfl),
        deleteLog_countP d Event.isFailedEdit (fun _ _ _ => rfl)]
    · simp [List.countP_cons, List.countP_append, Event.isDelete, Event.isFailedEdit,
        deleteLog_countP d Event.isDelete (fun _ _ _ => rfl),
        deleteLog_countP d Event.isFailedEdit (fun _ _ _ => rfl)]
    · intro ev hev
      simp only [List.mem_append, List.mem_cons, List.mem_singleton, List.not_mem_nil,
        or_false] at hev
      rcases hev with (hev | hev) | hev
      · rcases hev with rfl | rfl | rfl | rfl
        · trivial
        · exact rfl
        · trivial
        · trivial
      · obtain ⟨lvl, msg, err, rfl⟩ := deleteLog_is_log d ev hev
        trivial
      · rcases hev with rfl | rfl | rfl | rfl
        · trivial
        · trivial
        · exact rfl
        · trivial

/-- The requests of one call of `UpdateStatus`: those of its call of
`setStatus`, between two log lines. -/
theorem Outcome.block_requests {M : Models} {σ : Type} {s : StatusManager M σ}
    {p : StatusParams M} {err : Option GoError} {id : Int} {evs : List (Event M)}
    (h : Outcome s p err id evs) :
    (Event.log .debug "Updating status..." none :: evs ++ [reportLog err]).countP Event.isSend +
      (Event.log .debug "Updating status..." none :: evs ++ [reportLog err]).countP Event.isEdit =
      1 + (Event.log .debug "Updating status..." none :: evs ++ [reportLog err]).countP
        Event.isFailedEdit ∧
    (Event.log .debug "Updating status..." none :: evs ++ [reportLog err]).countP Event.isDelete =
      (Event.log .debug "Updating status..." none :: evs ++ [reportLog err]).countP
        Event.isFailedEdit ∧
    ∀ ev ∈ (Event.log .debug "Updating status..." none :: evs ++ [reportLog err] : List (Event M)),
      ev.builtFrom p := by
  obtain ⟨h1, h2, h3⟩ := h.requests
  obtain ⟨lvl, msg, e, hlog⟩ := @reportLog_is_log M err
  rw [hlog]
  refine ⟨?_, ?_, ?_⟩
  · simp only [List.cons_append, List.countP_cons, List.countP_append, List.countP_nil,
      Event.isSend, Event.isEdit, Event.isFailedEdit]
    simp only [Bool.false_eq_true, if_false]
    omega
  · simp only [List.cons_append, List.countP_cons, List.countP_append, List.countP_nil,
      Event.isDelete, Event.isFailedEdit]
    simp only [Bool.false_eq_true, if_false]
    omega
  · intro ev hev
    simp only [List.cons_append, List.mem_cons, List.mem_append, List.mem_singleton,
      List.not_mem_nil, or_false] at hev
    rcases hev with rfl | hev | rfl
    · trivial
    · exact h3 ev hev
    · trivial

theorem loop_eq {M : Models} {σ : Type} (T : Transport M σ) (n : Nat)
    (s : StatusManager M σ) (w : World M σ) :
    RunUpdater.loop T n s w = RunUpdater.loop T 0 (regularTicks T n s w).1
      (regularTicks T n s w).2 := by
  induction n generalizing s w with
  | zero => rfl
  | succ n ih =>
    show RunUpdater.loop T n _ _ = _
    rw [ih]
    rfl

/-- The events of `k` regular ticks: the configuration, the handle and the file
system are untouched, `UpdateStatus` was entered `k` times, and the requests are
those of `k` calls of `setStatus` with content returned by `StatusFunc`. -/
theorem regularTicks_outcome {M : Models} {σ : Type} (T : Transport M σ) (k : Nat)
    (s : StatusManager M σ) (w : World M σ) :
    ∃ (id : Int) (evs : List (Event M)) (x : σ),
      regularTicks T k s w =
        ({ s with messageID := id }, { ext := x, fs := w.fs, trace := w.trace ++ evs }) ∧
      evs.countP Event.isUpdating = k ∧ evs.countP Event.isWriteFile = 0 ∧
      evs.countP Event.isSend + evs.countP Event.isEdit = k + evs.countP Event.isFailedEdit ∧
      evs.countP Event.isDelete = evs.countP Event.isFailedEdit ∧
      ∀ ev ∈ evs, ∃ y, ev.builtFrom (s.StatusFunc y).1 := by
  induction k generalizing s w with
  | zero =>
    refine ⟨s.messageID, [], w.ext, by simp [regularTicks], rfl, rfl, rfl, rfl, ?_⟩
    intro ev hev
    simp at hev
  | succ k ih =>
    obtain ⟨err, id1, evs1, x1, heq, hout, -⟩ := UpdateStatus_outcome T s s.StatusFunc w
    obtain ⟨id, evs2, x, heq2, hc, hw, hreq, hdel, hbuilt⟩ := ih { s with messageID := id1 }
      { ext := x1, fs := w.fs, trace := w.trace ++
        (.log .debug "Updating status..." none :: evs1 ++ [reportLog err]) }
    obtain ⟨b1, b2, b3⟩ := hout.block_requests
    refine ⟨id, (Event.log .debug "Updating status..." none :: evs1 ++ [reportLog err]) ++ evs2,
      x, ?_, ?_, ?_, ?_, ?_, ?_⟩
    · simp only [regularTicks, heq]
      rw [heq2]
      simp
    · rw [List.countP_append, hc, List.countP_append, List.countP_cons,
        hout.countP_updating]
      cases err <;> simp [reportLog, Event.isUpdating] <;> omega
    · rw [List.countP_append, hw, List.countP_append, List.countP_cons,
        hout.countP_writeFile]
      cases err <;> simp [reportLog, Event.isWriteFile]
    · generalize (Event.log .debug "Updating status..." none :: evs1 ++ [reportLog err] :
        List (Event M)) = blk at b1 ⊢
      simp only [List.countP_append]
      omega
    · generalize (Event.log .debug "Updating status..." none :: evs1 ++ [reportLog err] :
        List (Event M)) = blk at b2 ⊢
      simp only [List.countP_append]
      omega
    · intro ev hev
      rcases List.mem_append.mp hev with hev | hev
      · exact ⟨w.ext, b3 ev hev⟩
      · exact hbuilt ev hev

theorem RunUpdater_eq {M : Models} {σ : Type} (T : Transport M σ)
    (s : StatusManager M σ) (n : Nat) (w : World M σ) :
    RunUpdater T s n w =
      ((afterStop T s n w).1,
        (saveFile (afterStop T s n w).1 (afterStop T s n w).2).2.emit
          (closingLog (saveFile (afterStop T s n w).1 (afterStop T s n w).2).1)) := by
  have h : RunUpdater T s n w = RunUpdater.loop T 0 (atCancel T s n w).1 (atCancel T s n w).2 := by
    show RunUpdater.loop T n _ _ = _
    rw [loop_eq]
    rfl
  rw [h]
  show (match (saveFile (afterStop T s n w).1 (afterStop T s n w).2).1 with
    | some err => _
    | none => _) = _
  cases (saveFile (afterStop T s n w).1 (afterStop T s n w).2).1 <;> rfl

/-- The result of `setStatus` depends on the world through the external state
only, and the trace only grows. -/
theorem setStatus_frame {M : Models} {σ : Type} (T : Transport M σ)
    (s : StatusManager M σ) (p : StatusParams M) (w w2 : World M σ) (hext : w.ext = w2.ext) :
    ∃ (err : Option GoError) (id : Int) (evs : List (Event M)) (x : σ),
      setStatus T s p w =
        (err, { s with messageID := id }, { ext := x, fs := w.fs, trace := w.trace ++ evs }) ∧
      setStatus T s p w2 =
        (err, { s with messageID := id },
          { ext := x, fs := w2.fs, trace := w2.trace ++ evs }) := by
  have hreq : sendRequest { s with messageID := 0 } p = sendRequest s p := rfl
  by_cases h : s.messageID = 0
  · rcases hs : (T.SendMessage s.bot (sendRequest s p) w.ext).1 with err | msg
    · refine ⟨some err, 0,
        [.log .warn "Message ID is not set; sending new message..." none,
         .send (sendRequest s p) (.error err)],
        (T.SendMessage s.bot (sendRequest s p) w.ext).2, ?_, ?_⟩
      · rw [setStatus_zero_error T s p w err h hs, with_messageID_self s 0 h]
      · rw [setStatus_zero_error T s p w2 err h (by rw [← hext]; exact hs),
          with_messageID_self s 0 h, hext]
    · refine ⟨none, msg.ID,
        [.log .warn "Message ID is not set; sending new message..." none,
         .send (sendRequest s p) (.ok msg), .storeID 0 msg.ID],
        (T.SendMessage s.bot (sendRequest s p) w.ext).2,
        setStatus_zero_ok T s p w msg h hs, ?_⟩
      rw [setStatus_zero_ok T s p w2 msg h (by rw [← hext]; exact hs), hext]
  · rcases he : (T.EditMessageText s.bot (editRequest s p) w.ext).1 with e | m
    · have he2 : (T.EditMessageText s.bot (editRequest s p) w2.ext).1 = .error e := by
        rw [← hext]; exact he
      rw [setStatus_edit_error T s p w e h he, setStatus_edit_error T s p w2 e h he2, ← hext]
      rcases hs : (T.SendMessage s.bot (sendRequest s p)
        (T.DeleteMessage s.bot (deleteRequest s)
          (T.EditMessageText s.bot (editRequest s p) w.ext).2).2).1 with err | msg
      · refine ⟨some err, 0,
          ([.log .debug "Editing status message..." none,
            .edit (editRequest s p) (.error e),
            .log .warn
              "Failed to edit status message; trying to delete it and send new one..."
              (some e),
            .delete (deleteRequest s)
              (T.DeleteMessage s.bot (deleteRequest s)
                (T.EditMessageText s.bot (editRequest s p) w.ext).2).1] ++
           deleteLog
              (T.DeleteMessage s.bot (deleteRequest s)
                (T.EditMessageText s.bot (editRequest s p) w.ext).2).1 ++
           [.resetID s.messageID]) ++
          [.log .warn "Message ID is not set; sending new message..." none,
           .send (sendRequest s p) (.error err)],
          (T.SendMessage s.bot (sendRequest s p)
            (T.DeleteMessage s.bot (deleteRequest s)
              (T.EditMessageText s.bot (editRequest s p) w.ext).2).2).2, ?_, ?_⟩
        · rw [setStatus_zero_error T _ p _ err rfl (by rw [hreq]; exact hs)]
          simp only [hreq, List.append_assoc]
        · rw [setStatus_zero_error T _ p _ err rfl (by rw [hreq]; exact hs)]
          simp only [hreq, List.append_assoc]
      · refine ⟨none, msg.ID,
          ([.log .debug "Editing status message..." none,
            .edit (editRequest s p) (.error e),
            .log .warn
              "Failed to edit status message; trying to delete it and send new one..."
              (some e),
            .delete (deleteRequest s)
              (T.DeleteMessage s.bot (deleteRequest s)
                (T.EditMessageText s.bot (editRequest s p) w.ext).2).1] ++
           deleteLog
              (T.DeleteMessage s.bot (deleteRequest s)
                (T.EditMessageText s.bot (editRequest s p) w.ext).2).1 ++
           [.resetID s.messageID]) ++
          [.log .warn "Message ID is not set; sending new message..." none,
           .send (sendRequest s p) (.ok msg), .storeID 0 msg.ID],
          (T.SendMessage s.bot (sendRequest s p)
            (T.DeleteMessage s.bot (deleteRequest s)
              (T.EditMessageText s.bot (editRequest s p) w.ext).2).2).2, ?_, ?_⟩
        · rw [setStatus_zero_ok T _ p _ msg rfl (by rw [hreq]; exact hs)]
          simp only [hreq, List.append_assoc]
        · rw [setStatus_zero_ok T _ p _ msg rfl (by rw [hreq]; exact hs)]
          simp only [hreq, List.append_assoc]
    · have he2 : (T.EditMessageText s.bot (editRequest s p) w2.ext).1 = .ok m := by
        rw [← hext]; exact he
      refine ⟨none, s.messageID,
        [.log .debug "Editing status message..." none, .edit (editRequest s p) (.ok m)],
        (T.EditMessageText s.bot (editRequest s p) w.ext).2, ?_, ?_⟩
      · rw [setStatus_edit_ok T s p w m h he, with_messageID_self s _ rfl]
      · rw [setStatus_edit_ok T s p w2 m h he2, with_messageID_self s _ rfl, hext]

theorem filter_append_log {M : Models} (tr : List (Event M)) (lvl : LogLevel)
    (msg : String) (err : Option GoError) :
    (tr ++ [Event.log lvl msg err]).filter (fun e => !e.isLog) =
      tr.filter (fun e => !e.isLog) := by
  simp [List.filter_append, Event.isLog]

theorem effects_emit_log {M : Models} {σ : Type} (w : World M σ) (lvl : LogLevel)
    (msg : String) (err : Option GoError) :
    (w.emit (.log lvl msg err)).effects = w.effects := by
  simp [World.effects, World.emit, List.filter_append, Event.isLog]

theorem effects_eq_iff {M : Models} {σ : Type} (w w2 : World M σ) :
    w.effects = w2.effects ↔
      w.ext = w2.ext ∧ w.fs = w2.fs ∧
      w.trace.filter (fun e => !e.isLog) = w2.trace.filter (fun e => !e.isLog) := by
  simp [World.effects, Prod.ext_iff]

/-- Worlds that differ in log lines only give `setStatus` results that differ in
log lines only. -/
theorem setStatus_effects {M : Models} {σ : Type} (T : Transport M σ)
    (s : StatusManager M σ) (p : StatusParams M) (w w2 : World M σ)
    (h : w.effects = w2.effects) :
    (setStatus T s p w).1 = (setStatus T s p w2).1 ∧
    (setStatus T s p w).2.1 = (setStatus T s p w2).2.1 ∧
    (setStatus T s p w).2.2.effects = (setStatus T s p w2).2.2.effects := by
  obtain ⟨hext, hfs, htr⟩ := (effects_eq_iff w w2).mp h
  obtain ⟨err, id, evs, x, h1, h2⟩ := setStatus_frame T s p w w2 hext
  rw [h1, h2]
  refine ⟨rfl, rfl, ?_⟩
  rw [effects_eq_iff]
  exact ⟨rfl, hfs, by simp only [List.filter_append, htr]⟩

/-- The method `UpdateStatus` is the reconciliation of the specification, up to
log lines. -/
theorem UpdateStatus_refines {M : Models} {σ : Type} (T : Transport M σ)
    (s : StatusManager M σ) (f : StatusFunc M σ) (w w2 : World M σ)
    (h : w.effects = w2.effects) :
    (UpdateStatus T s f w).1 = (reconcileWith T f s w2).1 ∧
    (UpdateStatus T s f w).2.effects = (reconcileWith T f s w2).2.effects := by
  obtain ⟨hext, hfs, htr⟩ := (effects_eq_iff w w2).mp h
  have hw : (World.mk (f w.ext).2 w.fs
        (w.trace ++ [(.log .debug "Updating status..." none : Event M)])).effects =
      (World.mk (f w2.ext).2 w2.fs w2.trace).effects := by
    rw [effects_eq_iff]
    refine ⟨by rw [hext], hfs, ?_⟩
    show (w.trace ++ [Event.log .debug "Updating status..." none]).filter _ = _
    rw [filter_append_log, htr]
  obtain ⟨h1, h2, h3⟩ := setStatus_effects T s (f w.ext).1 _ _ hw
  have hp : (f w.ext).1 = (f w2.ext).1 := by rw [hext]
  constructor
  · rw [UpdateStatus_fst, h2, hp]
    rfl
  · have hU : (UpdateStatus T s f w).2.effects =
        (setStatus T s (f w.ext).1
          { ext := (f w.ext).2, fs := w.fs,
            trace := w.trace ++ [.log .debug "Updating status..." none] }).2.2.effects := by
      simp only [UpdateStatus, World.emit]
      split <;> exact effects_emit_log _ _ _ _
    rw [hU, h3, hp]
    rfl

theorem saveFile_effects {M : Models} {σ : Type} (s : StatusManager M σ) (w w2 : World M σ)
    (h : w.effects = w2.effects) :
    (saveFile s w).1 = (saveFile s w2).1 ∧
    (saveFile s w).2.effects = (saveFile s w2).2.effects := by
  obtain ⟨hext, hfs, htr⟩ := (effects_eq_iff w w2).mp h
  by_cases hg : s.messageID = 0 ∨ s.SaveFile = ""
  · have hsave : ∀ v : World M σ, saveFile s v = (none, v) := by
      intro v
      simp only [saveFile, hg, if_true]
    rw [hsave w, hsave w2]
    exact ⟨rfl, h⟩
  · have hsave : ∀ v : World M σ, saveFile s v =
        ((v.fs.WriteFile s.SaveFile (jsonMarshalInt s.messageID)).1,
          World.mk v.ext (v.fs.WriteFile s.SaveFile (jsonMarshalInt s.messageID)).2
            (v.trace ++ [.log .debug "Saving message ID..." none] ++
              [.writeFile s.SaveFile (jsonMarshalInt s.messageID)
                (v.fs.WriteFile s.SaveFile (jsonMarshalInt s.messageID)).1])) := by
      intro v
      simp only [saveFile, hg, if_false, World.emit]
      cases (v.fs.WriteFile s.SaveFile (jsonMarshalInt s.messageID)).1 <;> rfl
    rw [hsave w, hsave w2, hfs]
    refine ⟨rfl, ?_⟩
    rw [effects_eq_iff]
    refine ⟨hext, rfl, ?_⟩
    simp only [List.filter_append, htr]

theorem regularTicks_refines {M : Models} {σ : Type} (T : Transport M σ) (k : Nat)
    (s : StatusManager M σ) (w w2 : World M σ) (h : w.effects = w2.effects) :
    (regularTicks T k s w).1 = (reconcileTimes T k s w2).1 ∧
    (regularTicks T k s w).2.effects = (reconcileTimes T k s w2).2.effects := by
  induction k generalizing s w w2 with
  | zero => exact ⟨rfl, h⟩
  | succ k ih =>
    obtain ⟨h1, h2⟩ := UpdateStatus_refines T s s.StatusFunc w w2 h
    simp only [regularTicks, reconcileTimes]
    rw [h1]
    exact ih _ _ _ h2

/-- The method `RunUpdater` is the shutdown sequence of the specification, up to
log lines. -/
theorem RunUpdater_refines {M : Models} {σ : Type} (T : Transport M σ)
    (s : StatusManager M σ) (n : Nat) (w : World M σ) :
    (RunUpdater T s n w).1 = (shutdownSpec T s n w).1 ∧
    (RunUpdater T s n w).2.effects = (shutdownSpec T s n w).2.effects := by
  obtain ⟨h1, h2⟩ := regularTicks_refines T (n + 1) s
    (w.emit (.log .debug "Updater started" none)) w (effects_emit_log _ _ _ _)
  have h3 : ((atCancel T s n w).2.emit (.log .debug "Stopping updater..." none)).effects =
      (reconcileTimes T (n + 1) s w).2.effects := by
    rw [effects_emit_log]
    exact h2
  have hc : (atCancel T s n w).1 = (reconcileTimes T (n + 1) s w).1 := h1
  obtain ⟨h4, h5⟩ := UpdateStatus_refines T (atCancel T s n w).1
    (atCancel T s n w).1.StopStatusFunc _ _ h3
  have h4b : (afterStop T s n w).1 =
      (reconcileWith T (reconcileTimes T (n + 1) s w).1.StopStatusFunc
        (reconcileTimes T (n + 1) s w).1 (reconcileTimes T (n + 1) s w).2).1 := by
    rw [← hc]; exact h4
  have h5b : (afterStop T s n w).2.effects =
      (reconcileWith T (reconcileTimes T (n + 1) s w).1.StopStatusFunc
        (reconcileTimes T (n + 1) s w).1 (reconcileTimes T (n + 1) s w).2).2.effects := by
    rw [← hc]; exact h5
  rw [RunUpdater_eq]
  refine ⟨h4b, ?_⟩
  show ((saveFile (afterStop T s n w).1 (afterStop T s n w).2).2.emit _).effects = _
  have hcl : ∀ o : Option GoError, ∃ lvl msg err, (closingLog o : Event M) = .log lvl msg err := by
    intro o
    cases o
    · exact ⟨_, _, _, rfl⟩
    · exact ⟨_, _, _, rfl⟩
  obtain ⟨lvl, msg, err, hlog⟩ :=
    hcl (saveFile (afterStop T s n w).1 (afterStop T s n w).2).1
  rw [hlog, effects_emit_log, h4b]
  exact (saveFile_effects _ _ _ h5b).2

/-- What `saveFile` emits: nothing, or the log line and one write; no request. -/
theorem saveFile_outcome {M : Models} {σ : Type} (s : StatusManager M σ) (w : World M σ) :
    ∃ (evs : List (Event M)) (fs : FileSystem),
      (saveFile s w).2 = { ext := w.ext, fs := fs, trace := w.trace ++ evs } ∧
      evs.countP Event.isUpdating = 0 ∧ evs.countP Event.isWriteFile ≤ 1 ∧
      (evs.countP Event.isSend = 0 ∧ evs.countP Event.isEdit = 0 ∧
        evs.countP Event.isFailedEdit = 0 ∧ evs.countP Event.isDelete = 0) ∧
      ∀ (p : StatusParams M), ∀ ev ∈ evs, ev.builtFrom p := by
  by_cases h : s.messageID = 0 ∨ s.SaveFile = ""
  · refine ⟨[], w.fs, by simp [saveFile, h], rfl, by simp, ⟨rfl, rfl, rfl, rfl⟩, ?_⟩
    intro p ev hev
    simp at hev
  · refine ⟨[.log .debug "Saving message ID..." none,
      .writeFile s.SaveFile (jsonMarshalInt s.messageID)
        (w.fs.WriteFile s.SaveFile (jsonMarshalInt s.messageID)).1],
      (w.fs.WriteFile s.SaveFile (jsonMarshalInt s.messageID)).2, ?_, ?_, ?_, ?_, ?_⟩
    · simp only [saveFile, h, if_false, World.emit]
      cases (w.fs.WriteFile s.SaveFile (jsonMarshalInt s.messageID)).1 <;> simp
    · simp [List.countP_cons, Event.isUpdating]
    · simp [List.countP_cons, Event.isWriteFile]
    · simp [List.countP_cons, Event.isSend, Event.isEdit, Event.isFailedEdit, Event.isDelete]
    · intro p ev hev
      simp only [List.mem_cons, List.mem_singleton, List.not_mem_nil, or_false] at hev
      rcases hev with rfl | rfl <;> trivial

/-- C5: for every number `n` of timer expiries before the cancellation,
`RunUpdater` performs `n + 1` reconciliations with `StatusFunc`, then one with
`StopStatusFunc`, then one call of `saveFile`, and returns, whatever the
reconciliations return.  Its manager, external state, file system, requests,
assignments and file accesses are those of `shutdownSpec`, which is that
sequence written with `setStatus` and the callbacks.  In the trace, between
"Updater started" and "Stopping updater..." there are the requests of exactly
`n + 1` calls of `setStatus` (one send or edit each, plus one delete and one
send for each failed edit), all with content returned by `StatusFunc`; after
"Stopping updater..." there are the requests of exactly one call, all with the
content returned by one call of `StopStatusFunc`; a file is written only after
it, and the closing line is last. -/
theorem RunUpdater_shutdown_sequence {M : Models} {σ : Type} (T : Transport M σ)
    (s : StatusManager M σ) (n : Nat) (w : World M σ) :
    ((RunUpdater T s n w).1 = (shutdownSpec T s n w).1 ∧
      (RunUpdater T s n w).2.effects = (shutdownSpec T s n w).2.effects) ∧
    RunUpdater T s n w =
      ((afterStop T s n w).1,
        (saveFile (afterStop T s n w).1 (afterStop T s n w).2).2.emit
          (closingLog (saveFile (afterStop T s n w).1 (afterStop T s n w).2).1)) ∧
    afterStop T s n w =
      UpdateStatus T
        (regularTicks T (n + 1) s (w.emit (.log .debug "Updater started" none))).1
        (regularTicks T (n + 1) s (w.emit (.log .debug "Updater started" none))).1.StopStatusFunc
        ((regularTicks T (n + 1) s (w.emit (.log .debug "Updater started" none))).2.emit
          (.log .debug "Stopping updater..." none)) ∧
    ∃ (pre post : List (Event M)),
      emitted w (RunUpdater T s n w).2 =
        .log .debug "Updater started" none :: pre ++
          .log .debug "Stopping updater..." none :: post ∧
      pre.countP Event.isUpdating = n + 1 ∧
      post.countP Event.isUpdating = 1 ∧
      pre.countP Event.isWriteFile = 0 ∧
      post.countP Event.isWriteFile ≤ 1 ∧
      post.getLast? =
        some (closingLog (saveFile (afterStop T s n w).1 (afterStop T s n w).2).1) ∧
      pre.countP Event.isSend + pre.countP Event.isEdit =
        (n + 1) + pre.countP Event.isFailedEdit ∧
      pre.countP Event.isDelete = pre.countP Event.isFailedEdit ∧
      post.countP Event.isSend + post.countP Event.isEdit =
        1 + post.countP Event.isFailedEdit ∧
      post.countP Event.isDelete = post.countP Event.isFailedEdit ∧
      (∀ ev ∈ pre, ∃ x, ev.builtFrom (s.StatusFunc x).1) ∧
      (∃ x, ∀ ev ∈ post, ev.builtFrom (s.StopStatusFunc x).1) := by
  refine ⟨RunUpdater_refines T s n w, RunUpdater_eq T s n w, rfl, ?_⟩
  rw [RunUpdater_eq]
  obtain ⟨id1, pre, x1, hticks, hpu, hpw, hpreq, hpdel, hpbuilt⟩ :=
    regularTicks_outcome T (n + 1) s (w.emit (.log .debug "Updater started" none))
  have hstop : afterStop T s n w = UpdateStatus T { s with messageID := id1 } s.StopStatusFunc
      { ext := x1, fs := w.fs,
        trace := w.trace ++ [.log .debug "Updater started" none] ++ pre ++
          [.log .debug "Stopping updater..." none] } := by
    simp only [afterStop, atCancel]
    rw [hticks]
    rfl
  obtain ⟨err, id2, evs, x2, hupd, hout, -⟩ := UpdateStatus_outcome T { s with messageID := id1 }
    s.StopStatusFunc
    { ext := x1, fs := w.fs,
      trace := w.trace ++ [.log .debug "Updater started" none] ++ pre ++
        [.log .debug "Stopping updater..." none] }
  rw [hupd] at hstop
  obtain ⟨b1, b2, b3⟩ := hout.block_requests
  obtain ⟨sevs, fs2, hsave, hsu, hsw, hsreq, hsbuilt⟩ := saveFile_outcome (afterStop T s n w).1
    (afterStop T s n w).2
  obtain ⟨lvl, msg, cerr, hclose⟩ := @closingLog_is_log M
    (saveFile (afterStop T s n w).1 (afterStop T s n w).2).1
  refine ⟨pre, (Event.log .debug "Updating status..." none :: evs ++ [reportLog err]) ++ sevs ++
    [closingLog (saveFile (afterStop T s n w).1 (afterStop T s n w).2).1], ?_, hpu, ?_, hpw,
    ?_, ?_, hpreq, hpdel, ?_, ?_, hpbuilt, ?_⟩
  · simp only [hsave, World.emit]
    rw [hstop]
    simp [emitted]
  · simp only [List.countP_append, List.countP_cons, hsu, hout.countP_updating]
    cases err <;>
      cases (saveFile (afterStop T s n w).1 (afterStop T s n w).2).1 <;>
      simp [reportLog, closingLog, Event.isUpdating]
  · simp only [List.countP_append, List.countP_cons, hout.countP_writeFile]
    cases err <;>
      cases (saveFile (afterStop T s n w).1 (afterStop T s n w).2).1 <;>
      simp [reportLog, closingLog, Event.isWriteFile] <;> omega
  · rw [List.getLast?_append]
    simp
  · rw [hclose]
    generalize (Event.log .debug "Updating status..." none :: evs ++ [reportLog err] :
      List (Event M)) = blk at b1 ⊢
    simp only [List.countP_append, List.countP_cons, List.countP_nil, Event.isSend,
      Event.isEdit, Event.isFailedEdit, Bool.false_eq_true, if_false]
    omega
  · rw [hclose]
    generalize (Event.log .debug "Updating status..." none :: evs ++ [reportLog err] :
      List (Event M)) = blk at b2 ⊢
    simp only [List.countP_append, List.countP_cons, List.countP_nil, Event.isDelete,
      Event.isFailedEdit, Bool.false_eq_true, if_false]
    omega
  · refine ⟨x1, ?_⟩
    intro ev hev
    rcases List.mem_append.mp hev with hev | hev
    · rcases List.mem_append.mp hev with hev | hev
      · exact b3 ev hev
      · exact hsbuilt _ ev hev
    · simp only [List.mem_singleton] at hev
      rw [hev, hclose]
      trivial

/-- C5 at the scenario of the specification with two timer expiries: the
requests are the send of "up" (answered with message 7), two edits of message 7
with "up", then one edit of message 7 with "stopped"; the manager of
`shutdownSpec` ends with the same identifier 7. -/
theorem RunUpdater_shutdown_sequence_witness :
    (emitted scenarioWorld
        (RunUpdater scenarioBot scenarioManager 2 scenarioWorld).2).filter Event.isRequest =
      [.send (sendRequest scenarioManager (textParams "up")) (.ok ⟨7⟩),
       .edit (editRequest { scenarioManager with messageID := 7 } (textParams "up")) (.ok ⟨7⟩),
       .edit (editRequest { scenarioManager with messageID := 7 } (textParams "up")) (.ok ⟨7⟩),
       .edit (editRequest { scenarioManager with messageID := 7 } (textParams "stopped"))
         (.ok ⟨7⟩)] ∧
    (shutdownSpec scenarioBot scenarioManager 2 scenarioWorld).1.messageID = 7 := by
  have h := (RunUpdater_shutdown_sequence scenarioBot scenarioManager 2 scenarioWorld).1.1
  refine ⟨?_, ?_⟩
  · simp only [RunUpdater, RunUpdater.loop, UpdateStatus, setStatus_eq_unrolled]
    rfl
  · rw [← h]
    simp only [RunUpdater, RunUpdater.loop, UpdateStatus, setStatus_eq_unrolled]
    decide

/-! ## JSON round trip -/

theorem NewStatusManager_messageID {M : Models} {σ : Type} (b : M.Bot) (config : Config M σ)
    (w : World M σ) (h : config.SaveFile ≠ "") :
    (NewStatusManager b config w).1.messageID =
      (jsonUnmarshalInt (w.fs.ReadFile config.SaveFile).1 0).2 := by
  simp only [NewStatusManager, h, ne_eq, not_false_eq_true, if_true]
  cases (jsonUnmarshalInt (w.fs.ReadFile config.SaveFile).1 0).1 <;> rfl

theorem jsonUnmarshalInt_of_not_integer (data : List Char) (cur : Int)
    (h : isJSONInteger data = false) : (jsonUnmarshalInt data cur).2 = cur := by
  have hp : parseIntLit (trimJSONSpace data) = none := by
    simpa [isJSONInteger] using h
  simp only [jsonUnmarshalInt, hp]
  split
  · rfl
  · split <;> rfl

/-- C7: `NewStatusManager` always returns a manager (it has no error result),
carrying the given configuration and handle unchanged, and its `messageID` is 0
when `SaveFile` is empty, when the file cannot be read (it is missing, or
reading is refused), and when its content is empty or is not a single JSON
integer. -/
theorem NewStatusManager_best_effort {M : Models} {σ : Type} (b : M.Bot)
    (config : Config M σ) (w : World M σ) :
    ((NewStatusManager b config w).1.toConfig = config ∧
      (NewStatusManager b config w).1.bot = b) ∧
    (config.SaveFile = "" → (NewStatusManager b config w).1.messageID = 0) ∧
    ((w.fs.ReadFile config.SaveFile).2 ≠ none →
      (NewStatusManager b config w).1.messageID = 0) ∧
    (w.fs.content config.SaveFile = none → (NewStatusManager b config w).1.messageID = 0) ∧
    (w.fs.readDenied config.SaveFile = true →
      (NewStatusManager b config w).1.messageID = 0) ∧
    (w.fs.ReadFile config.SaveFile = ([], none) →
      (NewStatusManager b config w).1.messageID = 0) ∧
    (∀ data, w.fs.ReadFile config.SaveFile = (data, none) → isJSONInteger data = false →
      (NewStatusManager b config w).1.messageID = 0) := by
  have hcases : ∀ data, (w.fs.ReadFile config.SaveFile).1 = data →
      isJSONInteger data = false → (NewStatusManager b config w).1.messageID = 0 := by
    intro data hdata hnot
    by_cases hp : config.SaveFile = ""
    · simp [NewStatusManager, hp]
    · rw [NewStatusManager_messageID b config w hp, hdata]
      exact jsonUnmarshalInt_of_not_integer data 0 hnot
  have hfail : (w.fs.ReadFile config.SaveFile).2 ≠ none →
      (w.fs.ReadFile config.SaveFile).1 = [] := by
    unfold FileSystem.ReadFile
    split
    · intro _; rfl
    · split
      · intro _; rfl
      · intro h; exact absurd rfl h
  refine ⟨?_, ?_, ?_, ?_, ?_, ?_, ?_⟩
  · by_cases hp : config.SaveFile = ""
    · simp [NewStatusManager, hp]
    · simp only [NewStatusManager, hp, ne_eq, not_false_eq_true, if_true]
      cases (jsonUnmarshalInt (w.fs.ReadFile config.SaveFile).1 0).1 <;> exact ⟨rfl, rfl⟩
  · intro hp
    simp [NewStatusManager, hp]
  · intro hr
    exact hcases [] (hfail hr) rfl
  · intro hc
    refine hcases [] (hfail ?_) rfl
    unfold FileSystem.ReadFile
    split
    · simp
    · simp [hc]
  · intro hd
    refine hcases [] (hfail ?_) rfl
    simp [FileSystem.ReadFile, hd]
  · intro hr
    exact hcases [] (by rw [hr]) rfl
  · intro data hr hnot
    exact hcases data (by rw [hr]) hnot

/-- C7 at concrete inputs: a missing file, and a file that holds `abc`. -/
theorem NewStatusManager_best_effort_witness :
    (NewStatusManager () (demoConfig "state.json") (freshWorld emptyFS)).1.messageID = 0 ∧
    (NewStatusManager () (demoConfig "state.json")
      (freshWorld (oneFileFS "state.json" ['a', 'b', 'c']))).1.messageID = 0 :=
  ⟨(NewStatusManager_best_effort () (demoConfig "state.json")
      (freshWorld emptyFS)).2.2.2.1 rfl,
    (NewStatusManager_best_effort () (demoConfig "state.json")
      (freshWorld (oneFileFS "state.json" ['a', 'b', 'c']))).2.2.2.2.2.2
      ['a', 'b', 'c'] (by decide) (by decide)⟩

/-- C8 as stated fails in two ways.  When every send fails the final
`messageID` is 0 and `saveFile` writes nothing: the file does not exist after
the run.  When the file system refuses the write, the final `messageID` is 9
and the file does not exist after the run either. -/
theorem RunUpdater_file_not_written :
    ((demoManager "state.json" 0).SaveFile ≠ "" ∧
      (RunUpdater (fixedBot (.error ⟨"timeout"⟩) (.ok ⟨7⟩) (.ok true))
        (demoManager "state.json" 0) 1 (freshWorld emptyFS)).1.messageID = 0 ∧
      (RunUpdater (fixedBot (.error ⟨"timeout"⟩) (.ok ⟨7⟩) (.ok true))
        (demoManager "state.json" 0) 1 (freshWorld emptyFS)).2.fs.content "state.json" = none ∧
      (RunUpdater (fixedBot (.error ⟨"timeout"⟩) (.ok ⟨7⟩) (.ok true))
        (demoManager "state.json" 0) 1 (freshWorld emptyFS)).2.fs.content "state.json" ≠
        some (jsonMarshalInt 0)) ∧
    ((RunUpdater (fixedBot (.ok ⟨9⟩) (.ok ⟨9⟩) (.ok true))
        (demoManager "state.json" 0) 1 (freshWorld readOnlyFS)).1.messageID = 9 ∧
      (RunUpdater (fixedBot (.ok ⟨9⟩) (.ok ⟨9⟩) (.ok true))
        (demoManager "state.json" 0) 1 (freshWorld readOnlyFS)).2.fs.content "state.json" = none ∧
      (RunUpdater (fixedBot (.ok ⟨9⟩) (.ok ⟨9⟩) (.ok true))
        (demoManager "state.json" 0) 1 (freshWorld readOnlyFS)).2.fs.content "state.json" ≠
        some (jsonMarshalInt 9)) := by
  simp only [RunUpdater, RunUpdater.loop, UpdateStatus, setStatus_eq_unrolled]
  decide

/-- C8, amended: for every run of `RunUpdater` on a manager whose `SaveFile` is
a non-empty path, after the cancellation the stop reconciliation is performed
with the params returned by `StopStatusFunc`; then, if the final `messageID` is
not 0 and the file system does not refuse the write, the file at `SaveFile`
holds the JSON encoding of the final `messageID` and the run ends with that
write and the line "Updater stopped"; if the final `messageID` is 0 the file
system is left as it was. -/
theorem RunUpdater_persists_identifier {M : Models} {σ : Type} (T : Transport M σ)
    (s : StatusManager M σ) (n : Nat) (w : World M σ) (hpath : s.SaveFile ≠ "") :
    (RunUpdater T s n w).1 = (afterStop T s n w).1 ∧
    (afterStop T s n w).1 =
      (setStatus T (atCancel T s n w).1 (s.StopStatusFunc (atCancel T s n w).2.ext).1
        { ext := (s.StopStatusFunc (atCancel T s n w).2.ext).2
          fs := (atCancel T s n w).2.fs
          trace := (atCancel T s n w).2.trace ++
            [.log .debug "Stopping updater..." none,
             .log .debug "Updating status..." none] }).2.1 ∧
    ((RunUpdater T s n w).1.messageID ≠ 0 → w.fs.writeDenied s.SaveFile = false →
      (RunUpdater T s n w).2.fs.content s.SaveFile =
        some (jsonMarshalInt (RunUpdater T s n w).1.messageID) ∧
      ∃ pre, emitted w (RunUpdater T s n w).2 =
        pre ++ [.writeFile s.SaveFile (jsonMarshalInt (RunUpdater T s n w).1.messageID) none,
                .log .info "Updater stopped" none]) ∧
    ((RunUpdater T s n w).1.messageID = 0 → (RunUpdater T s n w).2.fs = w.fs) := by
  obtain ⟨id1, pre, x1, hticks, -, -⟩ := regularTicks_outcome T (n + 1) s
    (w.emit (.log .debug "Updater started" none))
  have hcancel : atCancel T s n w =
      ({ s with messageID := id1 },
        { ext := x1, fs := w.fs,
          trace := w.trace ++ [.log .debug "Updater started" none] ++ pre }) := hticks
  obtain ⟨err, id2, evs, x2, hupd, -, -⟩ := UpdateStatus_outcome T { s with messageID := id1 }
    s.StopStatusFunc
    { ext := x1, fs := w.fs,
      trace := w.trace ++ [.log .debug "Updater started" none] ++ pre ++
        [.log .debug "Stopping updater..." none] }
  have hstop : afterStop T s n w =
      ({ s with messageID := id2 },
        { ext := x2, fs := w.fs,
          trace := w.trace ++ [.log .debug "Updater started" none] ++ pre ++
            [.log .debug "Stopping updater..." none] ++
            (.log .debug "Updating status..." none :: evs ++ [reportLog err]) }) := by
    rw [← hupd]
    simp only [afterStop]
    rw [hcancel]
    rfl
  refine ⟨by rw [RunUpdater_eq], ?_, ?_, ?_⟩
  · simp only [afterStop]
    rw [UpdateStatus_fst, hcancel]
    simp [World.emit]
  · rw [RunUpdater_eq, hstop]
    intro hid hw
    have hid2 : id2 ≠ 0 := hid
    simp only [saveFile, hid2, hpath, or_self, if_false, World.emit, FileSystem.WriteFile, hw]
    refine ⟨by simp, ?_⟩
    simp only [emitted, closingLog, List.append_assoc, List.drop_left]
    refine ⟨.log .debug "Updater started" none :: (pre ++
      (.log .debug "Stopping updater..." none :: .log .debug "Updating status..." none ::
        (evs ++ [reportLog err, .log .debug "Saving message ID..." none]))), ?_⟩
    simp
  · rw [RunUpdater_eq, hstop]
    intro hid
    have hid2 : id2 = 0 := hid
    simp [saveFile, hid2, World.emit]

/-- C8 at a concrete input: the send returns 42, one tick, then the shutdown;
the file holds `42`. -/
theorem RunUpdater_persists_identifier_witness :
    (RunUpdater (fixedBot (.ok ⟨42⟩) (.ok ⟨42⟩) (.ok true)) (demoManager "state.json" 0) 1
      (freshWorld emptyFS)).2.fs.content "state.json" = some ['4', '2'] := by
  have hid : (RunUpdater (fixedBot (.ok ⟨42⟩) (.ok ⟨42⟩) (.ok true))
      (demoManager "state.json" 0) 1 (freshWorld emptyFS)).1.messageID = 42 := by
    simp only [RunUpdater, RunUpdater.loop, UpdateStatus, setStatus_eq_unrolled]
    decide
  have h := ((RunUpdater_persists_identifier (fixedBot (.ok ⟨42⟩) (.ok ⟨42⟩) (.ok true))
    (demoManager "state.json" 0) 1 (freshWorld emptyFS) (by decide)).2.2.1
    (by rw [hid]; decide) rfl).1
  rw [hid] at h
  exact h

end TgStatus
